import Mathlib

/-!
Verification development for the packet-level network simulator of the
`onlynetwork` repository (TypeScript sources under `src/`).

The definitions below are a shallow embedding of the simulator core:

* `src/simulator/utils.ts`      — IP/CIDR math, MAC classification, longest-prefix
                                  match, link-endpoint lookup;
* `src/simulator/types.ts`      — the value types (`Packet`, `SimNode`, `SimLink`,
                                  `TraceHop`, `SimulationResult`, ...);
* `src/simulator/EventQueue.ts` — FIFO queue with a logical clock;
* `src/devices/*.ts`            — the per-device packet-processing functions
                                  (`HostDevice`, `SwitchDevice`, `RouterDevice`,
                                  `FirewallDevice`, `CloudDevice`);
* `src/simulator/GraphAnalyzer.ts` and `Simulator.simulate` (in `Simulator.ts`)
                                  — the reachability pre-check and the driver loop;
* `convertTopology` / `getInterfaceForConnection` (editor → engine conversion).

JavaScript semantics are modelled explicitly:

* optional string fields are `Option String`; JS truthiness tests (`if (!x)`,
  `x ? _ : _`, `a || b`) treat both `undefined` and the empty string as falsy,
  which `strTruthy` / `jsOrStr` capture;
* JS 32-bit integer bitwise operations (`<<`, `|`, `&`, `>>> 0`) are modelled on
  `Nat` in the unsigned-32-bit representation (`u32`, i.e. reduction `% 2^32`).
  JS `===` on two int32 results holds iff their unsigned representations are
  equal, so comparisons are preserved;
* `NaN` produced by failed `Number`/`parseInt` conversions is modelled with
  `Option` (`none` = NaN); JS's `ToInt32(NaN) = 0` and `NaN > x = false` are
  reproduced at each use site;
* JS `Map` (insertion-ordered, `set` replaces in place) is an association list
  with `mapSet` / `mapGet`.
-/

/-- Unsigned 32-bit reduction: the value of a JS int32/uint32 result seen as a
natural number (`>>> 0`). -/
def u32 (n : Nat) : Nat := n % 4294967296

/-- Split a character list at every occurrence of the separator (the JS
`String.split` with a one-character separator, over the character list). -/
def splitOnCharAux (c : Char) : List Char → List Char → List (List Char)
  | [], acc => [acc.reverse]
  | x :: xs, acc =>
    if x = c then acc.reverse :: splitOnCharAux c xs []
    else splitOnCharAux c xs (x :: acc)

/-- JS `s.split(sep)` for a one-character separator (the only shape the code
uses: `'.'`, `'/'`, `':'`). -/
def splitOnChar (c : Char) (s : String) : List String :=
  (splitOnCharAux c s.data []).map String.mk

/-- ASCII uppercase of one character (what `toUpperCase` does on the MAC
alphabet). -/
def charUpper (c : Char) : Char :=
  if 'a' ≤ c ∧ c ≤ 'z' then Char.ofNat (c.toNat - 32) else c

/-- JS `s.toUpperCase()` over ASCII. -/
def toUpperStr (s : String) : String := String.mk (s.data.map charUpper)

/-- JS `s.includes(c)` for a one-character needle. -/
def containsChar (s : String) (c : Char) : Bool := s.data.any (fun x => x = c)

/-- Does `s` end with the given suffix? -/
def endsWithStr (s suffix : String) : Bool := suffix.data.isSuffixOf s.data

/-- Drop the last `n` characters of `s`. -/
def dropRightStr (s : String) (n : Nat) : String :=
  String.mk (s.data.take (s.data.length - n))

/-- JS truthiness of an optional string: `undefined` and `""` are falsy. -/
def strTruthy : Option String → Bool
  | none => false
  | some s => s ≠ ""

/-- JS `a || b` for an optional string `a` and default `b`: takes `b` when `a`
is `undefined` or the empty string. -/
def jsOrStr : Option String → String → String
  | none, b => b
  | some a, b => if a = "" then b else a

/-- JS `vlan || 1` on an optional number: `undefined` and `0` are falsy, so
both default to 1. -/
def vlanOr1 : Option Nat → Nat
  | none => 1
  | some 0 => 1
  | some v => v

/-- Value of a list of decimal digit characters. -/
def decDigitsVal (cs : List Char) : Nat :=
  cs.foldl (fun a c => a * 10 + (c.toNat - 48)) 0

/-- JS `Number(s)` restricted to the shapes that appear in dotted-quad octets:
the empty string converts to `0`, a plain digit string to its value, anything
else to NaN (`none`). -/
def jsNumberOct (s : String) : Option Nat :=
  if s = "" then some 0
  else if s.data ≠ [] ∧ s.data.all (·.isDigit) then some (decDigitsVal s.data)
  else none

/-- JS `parseInt(s, 10)`: an optional leading `-` sign followed by the longest
prefix of decimal digits; NaN (`none`) when there is no digit. -/
def parseIntJs (s : String) : Option Int :=
  match s.data with
  | '-' :: rest =>
    let ds := rest.takeWhile (·.isDigit)
    if ds.isEmpty then none else some (-(decDigitsVal ds : Int))
  | cs =>
    let ds := cs.takeWhile (·.isDigit)
    if ds.isEmpty then none else some ((decDigitsVal ds : Int))

/-- Hexadecimal digit test. -/
def isHexDigitChar (c : Char) : Bool :=
  c.isDigit || ('a' ≤ c ∧ c ≤ 'f') || ('A' ≤ c ∧ c ≤ 'F')

/-- Value of one hexadecimal digit character. -/
def hexDigitVal (c : Char) : Nat :=
  if c.isDigit then c.toNat - 48
  else if 'a' ≤ c ∧ c ≤ 'f' then c.toNat - 87
  else c.toNat - 55

/-- JS `parseInt(s, 16)`: longest prefix of hex digits, NaN (`none`) when
empty. (No sign handling: MAC octets are unsigned.) -/
def parseHexJs (s : String) : Option Nat :=
  let ds := s.data.takeWhile isHexDigitChar
  if ds.isEmpty then none
  else some (ds.foldl (fun a c => a * 16 + hexDigitVal c) 0)

/-- `s.split('/')[0]` — the part of a string before the first `/`. -/
def ipPart (s : String) : String :=
  (splitOnChar '/' s).headD ""

/-- `s.split('/')[1]` — the part after the first `/`, `undefined` when there
is no `/`. -/
def cidrLenPart (s : String) : Option String :=
  (splitOnChar '/' s).get? 1

/-- JS `x & mask` where `x` may be NaN: `ToInt32(NaN) = 0`. Result in the
unsigned-32 representation. -/
def andMask : Option Nat → Nat → Nat
  | none, _ => 0
  | some v, m => v &&& m

-- ======================================================================
-- src/simulator/utils.ts
-- ======================================================================

/-- `ipToNumber` (utils.ts): `(p0 << 24) | (p1 << 16) | (p2 << 8) | p3` over
`ip.split('.').map(Number)`, in the unsigned-32 representation; `none` models
the NaN produced when an octet is missing or non-numeric. -/
def ipToNumber (ip : String) : Option Nat :=
  let parts := (splitOnChar '.' ip).map jsNumberOct
  match (parts.get? 0).join, (parts.get? 1).join,
        (parts.get? 2).join, (parts.get? 3).join with
  | some a, some b, some c, some d =>
    some ((((u32 (a * 16777216)) ||| (u32 (b * 65536))) ||| (u32 (c * 256))) ||| u32 d)
  | _, _, _, _ => none

/-- `prefixToMask` (utils.ts): `prefix === 0 ? 0 : (~0 << (32 - prefix)) >>> 0`.
The JS shift count is `ToUint32(32 - prefix) & 31 = (-prefix) mod 32`, and
`(~0 << k) >>> 0 = 2^32 - 2^k`; `none` models a NaN prefix (shift count 0,
mask `2^32 - 1`). -/
def prefixToMask : Option Int → Nat
  | none => 4294967295
  | some l =>
    if l = 0 then 0
    else 4294967296 - 2 ^ (((-l) % (32 : Int)).toNat)

/-- `ipInSubnet` (utils.ts): mask both the address and the subnet base with the
prefix mask and compare. -/
def ipInSubnet (ip : String) (cidr : String) : Bool :=
  andMask (ipToNumber ip) (prefixToMask ((cidrLenPart cidr).bind parseIntJs)) =
  andMask (ipToNumber (ipPart cidr)) (prefixToMask ((cidrLenPart cidr).bind parseIntJs))

/-- `macTableKey` (utils.ts): `` `${mac.toUpperCase()}-${vlan}` ``. -/
def macTableKey (mac : String) (vlan : Nat) : String :=
  toUpperStr mac ++ "-" ++ toString vlan

/-- `isBroadcastMac` (utils.ts). -/
def isBroadcastMac (mac : String) : Bool :=
  toUpperStr mac = "FF:FF:FF:FF:FF:FF"

/-- `isMulticastMac` (utils.ts): low bit of the first colon-separated octet;
a NaN first octet gives `NaN & 1 = 0`, i.e. not multicast. -/
def isMulticastMac (mac : String) : Bool :=
  let firstOctet := parseHexJs ((splitOnChar ':' mac).headD "")
  andMask firstOctet 1 = 1

-- ======================================================================
-- src/simulator/types.ts — core value types
-- ======================================================================

/-- Port mode of a switch interface (`'access' | 'trunk'`). -/
inductive PortMode where
  | access
  | trunk
deriving DecidableEq, Repr

/-- Node type tag (`SimNode.type`). -/
inductive NodeType where
  | host
  | phone
  | server
  | laptop
  | «switch»
  | router
  | firewall
  | cloud
deriving DecidableEq, Repr

/-- ACL rule action / firewall default policy (`'allow' | 'deny'`). -/
inductive AclAction where
  | allow
  | deny
deriving DecidableEq, Repr

/-- `Packet` (types.ts). Optional string fields keep the JS `undefined`
distinction; `proto` is kept as its literal string. -/
structure Packet where
  id : String
  srcMac : String
  dstMac : String
  srcIp : Option String := none
  dstIp : Option String := none
  vlan : Option Nat := none
  proto : String
  srcPort : Option Int := none
  dstPort : Option Int := none
  ttl : Int
  payload : Option String := none
deriving DecidableEq, Repr

/-- `PacketSpec` (types.ts). -/
structure PacketSpec where
  srcNodeId : String
  dstNodeId : String
  srcIp : Option String := none
  dstIp : Option String := none
  proto : Option String := none
  srcPort : Option Int := none
  dstPort : Option Int := none
deriving DecidableEq, Repr

/-- One `{ nodeId, interfaceId }` link endpoint. -/
structure Endpoint where
  nodeId : String
  interfaceId : String
deriving DecidableEq, Repr

/-- `SimEvent` (types.ts): a scheduled delivery. -/
structure SimEvent where
  packet : Packet
  nodeId : String
  interfaceId : String
  time : Nat
deriving DecidableEq, Repr

/-- `Omit<SimEvent, 'time'>`: an event as produced by a device, before the
queue stamps the clock on it. -/
structure PreEvent where
  packet : Packet
  nodeId : String
  interfaceId : String
deriving DecidableEq, Repr

/-- `TraceAction` (types.ts). -/
inductive TraceAction where
  | receive
  | forward
  | flood
  | drop
  | deliver
  | learn
  | route
  | arp
  | aclAllow
  | aclDeny
deriving DecidableEq, Repr

/-- `TraceHop` (types.ts). -/
structure TraceHop where
  time : Nat
  nodeId : String
  nodeLabel : String
  interfaceId : String
  action : TraceAction
  reason : String
  packet : Packet
deriving DecidableEq, Repr

/-- `SimulationResult` (types.ts). -/
structure SimulationResult where
  success : Bool
  delivered : Bool
  blocked : Bool
  loop : Bool
  trace : List TraceHop
  reason : String
deriving DecidableEq, Repr

/-- `MacTableEntry` (types.ts). -/
structure MacTableEntry where
  mac : String
  interfaceId : String
  vlan : Nat
  timestamp : Nat
deriving DecidableEq, Repr

/-- `MacTable = Map<string, MacTableEntry>`: a JS `Map` modelled as an
insertion-ordered association list. -/
abbrev MacTable := List (String × MacTableEntry)

/-- JS `Map.get`. -/
def mapGet (m : MacTable) (k : String) : Option MacTableEntry :=
  (m.find? (fun p => p.1 = k)).map (·.2)

/-- JS `Map.set`: replaces the value of an existing key in place, appends a
new key at the end. -/
def mapSet (m : MacTable) (k : String) (v : MacTableEntry) : MacTable :=
  if m.any (fun p => p.1 = k) then
    m.map (fun p => if p.1 = k then (k, v) else p)
  else
    m ++ [(k, v)]

/-- `SimulationOptions` (types.ts). -/
structure SimulationOptions where
  maxHops : Nat
  stepMode : Bool
  traceLevel : String
deriving DecidableEq, Repr

/-- `DEFAULT_SIM_OPTIONS` (types.ts). -/
def DEFAULT_SIM_OPTIONS : SimulationOptions :=
  { maxHops := 100, stepMode := false, traceLevel := "detailed" }

/-- `SimInterface` (types.ts). -/
structure SimInterface where
  id : String
  mac : String
  ip : Option String := none
  vlan : Option Nat := none
  portMode : Option PortMode := none
  allowedVlans : Option (List Nat) := none
deriving DecidableEq, Repr

/-- A static route (types.ts). The source calls the destination-prefix field
`prefix`; it is named `cidr` here (a Lean keyword clash), with the same
`"a.b.c.d/len"` string content. -/
structure StaticRoute where
  cidr : String
  nextHop : String
  outInterface : String
deriving DecidableEq, Repr

/-- An ACL rule (types.ts / FirewallDevice.ts). -/
structure AclRule where
  id : String
  order : Int
  action : AclAction
  srcIp : Option String := none
  dstIp : Option String := none
  proto : Option String := none
  srcPort : Option Int := none
  dstPort : Option Int := none
deriving DecidableEq, Repr

/-- `SimNode` (types.ts), including the optional type-specific configuration. -/
structure SimNode where
  id : String
  type : NodeType
  label : String
  interfaces : List SimInterface
  macLearning : Option Bool := none
  vlanDatabase : Option (List Nat) := none
  staticRoutes : Option (List StaticRoute) := none
  aclRules : Option (List AclRule) := none
  defaultPolicy : Option AclAction := none
deriving DecidableEq, Repr

/-- `SimLink` (types.ts): an edge between two `(node, interface)` endpoints.
Note the endpoints are nested under `source` / `target`; the type has no
top-level `sourceNodeId` / `targetNodeId` fields. -/
structure SimLink where
  id : String
  source : Endpoint
  target : Endpoint
deriving DecidableEq, Repr

/-- `SimTopology` (types.ts). -/
structure SimTopology where
  nodes : List SimNode
  links : List SimLink
deriving DecidableEq, Repr

/-- `DeviceProcessResult` (Device.ts). -/
structure DeviceProcessResult where
  events : List PreEvent
  trace : List TraceHop
  delivered : Bool
deriving DecidableEq, Repr

-- ======================================================================
-- src/simulator/utils.ts — lookups and longest-prefix match
-- ======================================================================

/-- `getConnectedInterface` (utils.ts): the first link having `(nodeId,
interfaceId)` as one endpoint yields the opposite endpoint. -/
def getConnectedInterface (links : List SimLink) (nodeId interfaceId : String) :
    Option Endpoint :=
  match links with
  | [] => none
  | l :: rest =>
    if l.source.nodeId = nodeId ∧ l.source.interfaceId = interfaceId then
      some l.target
    else if l.target.nodeId = nodeId ∧ l.target.interfaceId = interfaceId then
      some l.source
    else
      getConnectedInterface rest nodeId interfaceId

/-- `getNodeById` (utils.ts). -/
def getNodeById (nodes : List SimNode) (nodeId : String) : Option SimNode :=
  nodes.find? (fun n => n.id = nodeId)

/-- `getInterfaceById` (utils.ts). -/
def getInterfaceById (node : SimNode) (interfaceId : String) : Option SimInterface :=
  node.interfaces.find? (fun i => i.id = interfaceId)

/-- The parsed prefix length of a static route:
`parseInt(route.prefix.split('/')[1], 10)`, `none` = NaN. -/
def routePrefixLen (r : StaticRoute) : Option Int :=
  (cidrLenPart r.cidr).bind parseIntJs

/-- JS `prefix > bestPrefix` where `prefix` may be NaN (`NaN > x` is false). -/
def jsGtBest (p : Option Int) (best : Int) : Bool :=
  match p with
  | none => false
  | some v => best < v

/-- Scan of `findBestRoute`'s `for` loop, carrying the best route and its
prefix length so far. -/
def findBestRouteAux (dstIp : String) :
    List StaticRoute → Option StaticRoute → Int → Option StaticRoute
  | [], best, _ => best
  | r :: rest, best, bestLen =>
    if ipInSubnet dstIp r.cidr ∧ jsGtBest (routePrefixLen r) bestLen then
      findBestRouteAux dstIp rest (some r) ((routePrefixLen r).getD bestLen)
    else
      findBestRouteAux dstIp rest best bestLen

/-- `findBestRoute` (utils.ts): longest-prefix match over the static routes,
`null` when the list is absent, empty, or has no containing route. -/
def findBestRoute (staticRoutes : Option (List StaticRoute)) (dstIp : String) :
    Option StaticRoute :=
  match staticRoutes with
  | none => none
  | some rs => findBestRouteAux dstIp rs none (-1)

-- ======================================================================
-- src/devices — shared Device helpers (Device.ts)
-- ======================================================================

/-- `createTraceHop` (Device.ts): a hop stamped with this device's id/label. -/
def mkHop (node : SimNode) (time : Nat) (interfaceId : String)
    (action : TraceAction) (reason : String) (pkt : Packet) : TraceHop :=
  { time := time, nodeId := node.id, nodeLabel := node.label,
    interfaceId := interfaceId, action := action, reason := reason, packet := pkt }

/-- `isPacketForThisDevice` (Device.ts): destination MAC equals the ingress
interface's MAC (case-insensitive), or broadcast MAC, or destination IP equals
the interface's IP. The IP arm is guarded by JS truthiness of `packet.dstIp`,
and compares against `iface.ip?.split('/')[0]` with strict equality
(`undefined === s` is false). -/
def isPacketForThisDevice (node : SimNode) (pkt : Packet) (interfaceId : String) : Bool :=
  match getInterfaceById node interfaceId with
  | none => false
  | some iface =>
    let dstMacMatch := toUpperStr pkt.dstMac = toUpperStr iface.mac
    let broadcastMatch := toUpperStr pkt.dstMac = "FF:FF:FF:FF:FF:FF"
    let ipMatch :=
      if strTruthy pkt.dstIp then iface.ip.map ipPart = some (pkt.dstIp.getD "")
      else false
    dstMacMatch || broadcastMatch || ipMatch

-- ======================================================================
-- src/devices/HostDevice.ts and CloudDevice.ts
-- ======================================================================

/-- `HostDevice.processPacket`: deliver when the packet is for this host,
otherwise drop (hosts never forward). -/
def hostProcessPacket (node : SimNode) (interfaceId : String) (pkt : Packet)
    (_links : List SimLink) (time : Nat) : DeviceProcessResult :=
  match getInterfaceById node interfaceId with
  | none =>
    { events := [], trace := [mkHop node time interfaceId .drop "Invalid interface" pkt],
      delivered := false }
  | some _ =>
    if isPacketForThisDevice node pkt interfaceId then
      { events := [],
        trace := [mkHop node time interfaceId .deliver
          ("Packet delivered to " ++ node.label) pkt],
        delivered := true }
    else
      { events := [],
        trace := [mkHop node time interfaceId .drop
          "Packet not addressed to this host" pkt],
        delivered := false }

/-- `HostDevice.sendPacket`: synthesize the initial packet on the host's first
interface (TTL 64, the interface's MAC/IP/VLAN) and emit one event to the link
peer; with no interface the result is empty, with no link the single trace hop
is rewritten into a drop. `pktId` stands for `generatePacketId()`, threaded
explicitly to keep the embedding deterministic. -/
def hostSendPacket (node : SimNode) (dstMac dstIp : String) (links : List SimLink)
    (time : Nat) (proto : String) (srcPort dstPort : Option Int)
    (pktId : String) : DeviceProcessResult :=
  match node.interfaces.head? with
  | none => { events := [], trace := [], delivered := false }
  | some iface =>
    let pkt : Packet :=
      { id := pktId, srcMac := iface.mac, dstMac := dstMac,
        srcIp := iface.ip.map ipPart, dstIp := some dstIp, vlan := iface.vlan,
        proto := proto, srcPort := srcPort, dstPort := dstPort, ttl := 64 }
    let hop0 := mkHop node time iface.id .forward
      ("Sending packet from " ++ node.label ++ " to " ++ dstIp) pkt
    match getConnectedInterface links node.id iface.id with
    | none =>
      { events := [],
        trace := [{ hop0 with action := .drop, reason := "No link connected" }],
        delivered := false }
    | some c =>
      { events := [⟨pkt, c.nodeId, c.interfaceId⟩], trace := [hop0],
        delivered := false }

/-- `CloudDevice.processPacket`: accepts every packet arriving on a valid
interface. -/
def cloudProcessPacket (node : SimNode) (interfaceId : String) (pkt : Packet)
    (_links : List SimLink) (time : Nat) : DeviceProcessResult :=
  match getInterfaceById node interfaceId with
  | none =>
    { events := [], trace := [mkHop node time interfaceId .drop "Invalid interface" pkt],
      delivered := false }
  | some _ =>
    { events := [],
      trace := [mkHop node time interfaceId .deliver
        ("Packet delivered to " ++ node.label ++ " (Internet)") pkt],
      delivered := true }

-- ======================================================================
-- src/devices/SwitchDevice.ts
-- ======================================================================

/-- `SwitchDevice.resolveVlan`: the effective VLAN at ingress — an access
port's configured VLAN (`|| 1`), a trunk's packet tag (`|| 1`) filtered by the
allowed-VLAN set (`none` = rejected), otherwise the packet's tag `|| 1`. -/
def resolveVlan (pkt : Packet) (ingressIface : SimInterface) : Option Nat :=
  match ingressIface.portMode with
  | some .access => some (vlanOr1 ingressIface.vlan)
  | some .trunk =>
    let v := vlanOr1 pkt.vlan
    match ingressIface.allowedVlans with
    | some allowed => if v ∈ allowed then some v else none
    | none => some v
  | none => some (vlanOr1 pkt.vlan)

/-- `SwitchDevice.learnMacAddress`: insert/overwrite the `(mac, vlan)` entry
when absent or recorded on a different interface, emitting a `learn` hop whose
snapshot is a minimal synthesized packet (`learnPktId` stands for the
`generatePacketId()` call). Returns the updated table and the emitted hops. -/
def learnMacAddress (node : SimNode) (mac interfaceId : String) (vlan time : Nat)
    (table : MacTable) (learnPktId : String) : MacTable × List TraceHop :=
  let key := macTableKey mac vlan
  let needsLearn :=
    match mapGet table key with
    | none => true
    | some existing => existing.interfaceId ≠ interfaceId
  if needsLearn then
    let table' := mapSet table key
      { mac := mac, interfaceId := interfaceId, vlan := vlan, timestamp := time }
    let learnPkt : Packet :=
      { id := learnPktId, srcMac := mac, dstMac := "", proto := "icmp", ttl := 64 }
    (table',
     [mkHop node time interfaceId .learn
       ("Learned " ++ mac ++ " on " ++ interfaceId ++ " (VLAN " ++ toString vlan ++ ")")
       learnPkt])
  else
    (table, [])

/-- `SwitchDevice.canEgressOnInterface`: access ports require the configured
VLAN to equal the effective VLAN, trunks require membership in the allowed set
(or no restriction); an interface with no port mode transmits exactly for
VLAN 1. -/
def canEgressOnInterface (iface : SimInterface) (vlan : Nat) : Bool :=
  match iface.portMode with
  | some .access => iface.vlan = some vlan
  | some .trunk =>
    match iface.allowedVlans with
    | none => true
    | some allowed => vlan ∈ allowed
  | none => vlan = 1

/-- `SwitchDevice.prepareEgressPacket`: strip the VLAN tag on an access
egress, keep it otherwise. -/
def prepareEgressPacket (pkt : Packet) (egressIface : SimInterface) : Packet :=
  if egressIface.portMode = some .access then { pkt with vlan := none } else pkt

/-- `SwitchDevice.forwardToKnownPort`: unicast out the table-known interface
when it exists, differs from the ingress, passes the egress VLAN check, and has
a link peer. -/
def forwardToKnownPort (node : SimNode) (egressInterfaceId : String) (pkt : Packet)
    (ingressInterfaceId : String) (vlan : Nat) (links : List SimLink) (time : Nat) :
    List PreEvent × List TraceHop :=
  match getInterfaceById node egressInterfaceId with
  | none => ([], [])
  | some egressIface =>
    if egressIface.id = ingressInterfaceId then ([], [])
    else if canEgressOnInterface egressIface vlan then
      let outPkt := prepareEgressPacket pkt egressIface
      match getConnectedInterface links node.id egressIface.id with
      | some c =>
        ([⟨outPkt, c.nodeId, c.interfaceId⟩],
         [mkHop node time egressIface.id .forward
           ("Forwarding to known MAC on " ++ egressIface.id) outPkt])
      | none => ([], [])
    else ([], [])

/-- `SwitchDevice.floodPacket`: one `flood` hop, then one event per non-ingress
interface that passes the egress VLAN check and has a link peer. -/
def floodPacket (node : SimNode) (pkt : Packet) (ingressInterfaceId : String)
    (vlan : Nat) (links : List SimLink) (time : Nat) (isBroadcast : Bool) :
    List PreEvent × List TraceHop :=
  let floodHop := mkHop node time ingressInterfaceId .flood
    (if isBroadcast then "Flooding broadcast" else "Unknown destination, flooding") pkt
  let events := node.interfaces.filterMap (fun egressIface =>
    if egressIface.id = ingressInterfaceId then none
    else if canEgressOnInterface egressIface vlan then
      match getConnectedInterface links node.id egressIface.id with
      | some c => some (⟨prepareEgressPacket pkt egressIface, c.nodeId, c.interfaceId⟩ : PreEvent)
      | none => none
    else none)
  (events, [floodHop])

/-- The forwarding stage of `SwitchDevice.processPacket`: broadcast/multicast
destinations and unknown unicasts flood, a table-known unicast forwards out
the recorded interface. -/
def switchForwardStage (node : SimNode) (processedPacket : Packet)
    (ingressInterfaceId : String) (vlan : Nat) (links : List SimLink) (time : Nat)
    (isBcast : Bool) (dstEntry : Option MacTableEntry) :
    List PreEvent × List TraceHop :=
  match (if isBcast then none else dstEntry) with
  | some e =>
    forwardToKnownPort node e.interfaceId processedPacket ingressInterfaceId vlan links time
  | none =>
    floodPacket node processedPacket ingressInterfaceId vlan links time isBcast

/-- `SwitchDevice.processPacket`: VLAN resolution, MAC learning (when enabled
and a table was provided — `config.macLearning ?? true`), receive trace, then
table-driven unicast or flood. The packet-id counter mints the id of the
synthesized learn-trace packet; the (possibly updated) MAC table is returned
explicitly in place of the in-place `Map` mutation. -/
def switchProcessPacket (node : SimNode) (interfaceId : String) (pkt : Packet)
    (links : List SimLink) (time : Nat) (macTable : Option MacTable)
    (counter : Nat) : DeviceProcessResult × Option MacTable × Nat :=
  match getInterfaceById node interfaceId with
  | none =>
    ({ events := [],
       trace := [mkHop node time interfaceId .drop "Invalid ingress interface" pkt],
       delivered := false }, macTable, counter)
  | some ingressIface =>
    match resolveVlan pkt ingressIface with
    | none =>
      ({ events := [],
         trace := [mkHop node time interfaceId .drop "VLAN not allowed on trunk" pkt],
         delivered := false }, macTable, counter)
    | some vlan =>
      let processedPacket := { pkt with vlan := some vlan }
      let learnStep : Option MacTable × List TraceHop × Nat :=
        match macTable with
        | some t =>
          if node.macLearning.getD true then
            let r := learnMacAddress node pkt.srcMac interfaceId vlan time t
              ("pkt-" ++ toString counter)
            (some r.1, r.2, if r.2.isEmpty then counter else counter + 1)
          else (some t, [], counter)
        | none => (none, [], counter)
      let table' := learnStep.1
      let learnTrace := learnStep.2.1
      let counter' := learnStep.2.2
      let receiveHop := mkHop node time interfaceId .receive
        ("Packet received on " ++ interfaceId) processedPacket
      let isBcast := isBroadcastMac pkt.dstMac || isMulticastMac pkt.dstMac
      let dstEntry : Option MacTableEntry :=
        match table' with
        | some t => mapGet t (macTableKey pkt.dstMac vlan)
        | none => none
      let fwd : List PreEvent × List TraceHop :=
        switchForwardStage node processedPacket interfaceId vlan links time isBcast dstEntry
      ({ events := fwd.1, trace := learnTrace ++ [receiveHop] ++ fwd.2,
         delivered := false }, table', counter')

-- ======================================================================
-- src/devices/RouterDevice.ts
-- ======================================================================

/-- `RouterDevice.isPacketForRouter`: the destination IP strictly equals some
interface IP (prefix stripped); an absent or empty interface IP never matches
(JS truthiness guard). -/
def isPacketForRouter (node : SimNode) (pkt : Packet) : Bool :=
  node.interfaces.any (fun iface =>
    match iface.ip.map ipPart with
    | some s => s ≠ "" ∧ pkt.dstIp = some s
    | none => false)

/-- The scan of `RouterDevice.findDirectRoute` over the remaining interfaces:
skip the ingress interface and interfaces with a falsy IP; on a subnet match,
rewrite the source MAC and emit via the link peer — when the matching
interface has no peer the loop continues with the next interface. -/
def findDirectRouteAux (node : SimNode) (dstIp ingressInterfaceId : String)
    (links : List SimLink) (routedPacket : Packet) (time : Nat) :
    List SimInterface → Option (PreEvent × TraceHop)
  | [] => none
  | iface :: rest =>
    if iface.id = ingressInterfaceId ∨ ¬ strTruthy iface.ip then
      findDirectRouteAux node dstIp ingressInterfaceId links routedPacket time rest
    else if ipInSubnet dstIp (iface.ip.getD "") then
      let forwardedPacket := { routedPacket with srcMac := iface.mac }
      match getConnectedInterface links node.id iface.id with
      | some c =>
        some (⟨forwardedPacket, c.nodeId, c.interfaceId⟩,
          mkHop node time iface.id .route
            ("Routing to directly connected network via " ++ iface.id) forwardedPacket)
      | none =>
        findDirectRouteAux node dstIp ingressInterfaceId links routedPacket time rest
    else
      findDirectRouteAux node dstIp ingressInterfaceId links routedPacket time rest

/-- `RouterDevice.findDirectRoute` over the router's configured interfaces. -/
def findDirectRoute (node : SimNode) (dstIp ingressInterfaceId : String)
    (links : List SimLink) (routedPacket : Packet) (time : Nat) :
    Option (PreEvent × TraceHop) :=
  findDirectRouteAux node dstIp ingressInterfaceId links routedPacket time node.interfaces

/-- `RouterDevice.findStaticRoute`: longest-prefix match over the configured
static routes (`config.staticRoutes || []`); the selected route forwards only
when its egress interface exists and has a link peer. -/
def findStaticRoute (node : SimNode) (dstIp : String) (links : List SimLink)
    (routedPacket : Packet) (time : Nat) : Option (PreEvent × TraceHop) :=
  match findBestRoute (some (node.staticRoutes.getD [])) dstIp with
  | none => none
  | some route =>
    match getInterfaceById node route.outInterface with
    | none => none
    | some egressIface =>
      let forwardedPacket := { routedPacket with srcMac := egressIface.mac }
      match getConnectedInterface links node.id egressIface.id with
      | none => none
      | some c =>
        some (⟨forwardedPacket, c.nodeId, c.interfaceId⟩,
          mkHop node time egressIface.id .route
            ("Routing via static route " ++ route.cidr ++ " -> " ++ route.nextHop)
            forwardedPacket)

/-- `RouterDevice.processPacket`: for-us delivery, TTL check (`ttl <= 1`
drops, otherwise operate on the decremented packet), receive trace,
missing-destination drop, direct-route lookup, static-route lookup, no-route
drop. -/
def routerProcessPacket (node : SimNode) (interfaceId : String) (pkt : Packet)
    (links : List SimLink) (time : Nat) : DeviceProcessResult :=
  match getInterfaceById node interfaceId with
  | none =>
    { events := [],
      trace := [mkHop node time interfaceId .drop "Invalid ingress interface" pkt],
      delivered := false }
  | some _ =>
    if isPacketForRouter node pkt then
      { events := [],
        trace := [mkHop node time interfaceId .deliver
          ("Packet delivered to router " ++ node.label) pkt],
        delivered := true }
    else if pkt.ttl ≤ 1 then
      { events := [],
        trace := [mkHop node time interfaceId .drop "TTL expired" pkt],
        delivered := false }
    else
      let routedPacket := { pkt with ttl := pkt.ttl - 1 }
      let receiveHop := mkHop node time interfaceId .receive
        ("Packet received on " ++ interfaceId) routedPacket
      if ¬ strTruthy pkt.dstIp then
        { events := [],
          trace := [receiveHop,
            mkHop node time interfaceId .drop "No destination IP for routing" routedPacket],
          delivered := false }
      else
        let d := pkt.dstIp.getD ""
        match findDirectRoute node d interfaceId links routedPacket time with
        | some r => { events := [r.1], trace := [receiveHop, r.2], delivered := false }
        | none =>
          match findStaticRoute node d links routedPacket time with
          | some r => { events := [r.1], trace := [receiveHop, r.2], delivered := false }
          | none =>
            { events := [],
              trace := [receiveHop,
                mkHop node time interfaceId .drop ("No route to " ++ d) routedPacket],
              delivered := false }

-- ======================================================================
-- src/devices/FirewallDevice.ts
-- ======================================================================

/-- `FirewallDevice.isPacketForFirewall`: same code as
`RouterDevice.isPacketForRouter`. -/
def isPacketForFirewall (node : SimNode) (pkt : Packet) : Bool :=
  isPacketForRouter node pkt

/-- The `proto` clause of `FirewallDevice.matchesRule` fails iff the rule's
protocol is truthy, not `"any"`, and differs from the packet's protocol. -/
def protoClauseFails (rule : AclRule) (pkt : Packet) : Bool :=
  strTruthy rule.proto ∧ rule.proto.getD "" ≠ "any" ∧ rule.proto.getD "" ≠ pkt.proto

/-- An IP clause of `FirewallDevice.matchesRule` fails iff the rule's IP is
truthy, not `"any"`, the packet's corresponding IP is truthy, and the CIDR
containment (when the rule value contains `/`) or the strict string equality
fails. -/
def ipClauseFails (ruleIp pktIp : Option String) : Bool :=
  strTruthy ruleIp ∧ ruleIp.getD "" ≠ "any" ∧ strTruthy pktIp ∧
    (if containsChar (ruleIp.getD "") '/' then
       ¬ ipInSubnet (pktIp.getD "") (ruleIp.getD "")
     else
       ruleIp.getD "" ≠ pktIp.getD "")

/-- A port clause of `FirewallDevice.matchesRule` fails iff the rule's port is
defined and the packet's port is not strictly equal to it. -/
def portClauseFails (rulePort pktPort : Option Int) : Bool :=
  match rulePort with
  | some p => pktPort ≠ some p
  | none => false

/-- `FirewallDevice.matchesRule`: the early-return chain over the five
clauses. -/
def matchesRule (pkt : Packet) (rule : AclRule) : Bool :=
  if protoClauseFails rule pkt then false
  else if ipClauseFails rule.srcIp pkt.srcIp then false
  else if ipClauseFails rule.dstIp pkt.dstIp then false
  else if portClauseFails rule.srcPort pkt.srcPort then false
  else if portClauseFails rule.dstPort pkt.dstPort then false
  else true

/-- The ascending-by-`order` sort of `matchAclRules`
(`[...rules].sort((a, b) => a.order - b.order)`). JS `Array.sort` is stable,
and a stable sort under a total preorder is unique, so the insertion sort
used here computes the same list. -/
def sortRules (rules : List AclRule) : List AclRule :=
  List.insertionSort (fun a b => a.order ≤ b.order) rules

/-- `FirewallDevice.matchAclRules`: first matching rule of the sorted list
decides (`matched`, `action`, `matchedRule`); otherwise the default policy. -/
def matchAclRules (rules : List AclRule) (defaultPolicy : AclAction) (pkt : Packet) :
    Bool × AclAction × Option AclRule :=
  match (sortRules rules).find? (fun r => matchesRule pkt r) with
  | some r => (true, r.action, some r)
  | none => (false, defaultPolicy, none)

/-- Render an `AclAction` the way the template literal renders the policy
string. -/
def aclActionStr : AclAction → String
  | .allow => "allow"
  | .deny => "deny"

/-- The scan of `FirewallDevice.forwardPacket`: the first non-ingress
interface with a link peer; the source MAC is rewritten to that interface's
MAC. -/
def fwForwardAux (node : SimNode) (pkt : Packet) (ingressInterfaceId : String)
    (links : List SimLink) (time : Nat) :
    List SimInterface → Option (PreEvent × TraceHop)
  | [] => none
  | egressIface :: rest =>
    if egressIface.id = ingressInterfaceId then
      fwForwardAux node pkt ingressInterfaceId links time rest
    else
      match getConnectedInterface links node.id egressIface.id with
      | some c =>
        let forwardedPacket := { pkt with srcMac := egressIface.mac }
        some (⟨forwardedPacket, c.nodeId, c.interfaceId⟩,
          mkHop node time egressIface.id .forward
            ("Forwarding via " ++ egressIface.id) forwardedPacket)
      | none => fwForwardAux node pkt ingressInterfaceId links time rest

/-- `FirewallDevice.forwardPacket` over the firewall's interfaces. -/
def fwForwardPacket (node : SimNode) (pkt : Packet) (ingressInterfaceId : String)
    (links : List SimLink) (time : Nat) : Option (PreEvent × TraceHop) :=
  fwForwardAux node pkt ingressInterfaceId links time node.interfaces

/-- `FirewallDevice.processPacket`: receive trace, for-us delivery, ordered
ACL evaluation (`config.aclRules || []`, `config.defaultPolicy || 'deny'`),
deny stops with an `acl-deny` hop, allow records an `acl-allow` hop and
forwards out the first non-ingress connected interface. -/
def firewallProcessPacket (node : SimNode) (interfaceId : String) (pkt : Packet)
    (links : List SimLink) (time : Nat) : DeviceProcessResult :=
  match getInterfaceById node interfaceId with
  | none =>
    { events := [],
      trace := [mkHop node time interfaceId .drop "Invalid ingress interface" pkt],
      delivered := false }
  | some _ =>
    let receiveHop := mkHop node time interfaceId .receive
      ("Packet received on " ++ interfaceId) pkt
    if isPacketForFirewall node pkt then
      { events := [],
        trace := [receiveHop,
          mkHop node time interfaceId .deliver
            ("Packet delivered to firewall " ++ node.label) pkt],
        delivered := true }
    else
      let defaultPolicy := node.defaultPolicy.getD .deny
      let aclResult := matchAclRules (node.aclRules.getD []) defaultPolicy pkt
      let reasonTail :=
        match aclResult.2.2 with
        | some r => "ACL rule " ++ toString r.order
        | none => "default policy (" ++ aclActionStr defaultPolicy ++ ")"
      if aclResult.2.1 = .deny then
        { events := [],
          trace := [receiveHop,
            mkHop node time interfaceId .aclDeny ("Blocked by " ++ reasonTail) pkt],
          delivered := false }
      else
        let allowHop := mkHop node time interfaceId .aclAllow
          ("Allowed by " ++ reasonTail) pkt
        match fwForwardPacket node pkt interfaceId links time with
        | some r =>
          { events := [r.1], trace := [receiveHop, allowHop, r.2], delivered := false }
        | none =>
          { events := [], trace := [receiveHop, allowHop], delivered := false }

-- ======================================================================
-- src/simulator/GraphAnalyzer.ts
-- ======================================================================

/-- The stringified key a JS graph library derives from an `undefined` node
argument (`"" + undefined`). -/
def jsUndefinedKey : String := "undefined"

/-- The edge set actually built by `GraphAnalyzer.buildGraph`: the code reads
`link.sourceNodeId` / `link.targetNodeId`, but `SimLink` carries its endpoints
nested as `link.source.nodeId` / `link.target.nodeId` and has no such
top-level fields, so both `setEdge` arguments are `undefined` and every link
contributes the same self-edge between the stringified keys `"undefined"`. -/
def analyzerEdges (links : List SimLink) : List (String × String) :=
  links.map (fun _ => (jsUndefinedKey, jsUndefinedKey))

/-- Undirected neighbor set of a vertex in an edge list. -/
def neighborsOf (edges : List (String × String)) (v : String) : List String :=
  edges.filterMap (fun e =>
    if e.1 = v then some e.2 else if e.2 = v then some e.1 else none)

/-- One breadth expansion of a reached-vertex list. -/
def expandReach (edges : List (String × String)) (vs : List String) : List String :=
  vs ++ ((vs.flatMap (neighborsOf edges)).filter (fun w => ¬ w ∈ vs))

/-- Iterated expansion: after `n` rounds every vertex within distance `n` of
the start list is present. -/
def reachSet (edges : List (String × String)) : Nat → List String → List String
  | 0, vs => vs
  | n + 1, vs => reachSet edges n (expandReach edges vs)

/-- `GraphAnalyzer.isReachable`. The body is
`try { const path = this.graph.path(sourceId, targetId); return path !== null
&& path.length > 0 } catch { return false }` — but `graphlib`'s `Graph` class
exposes no `path` method (path search lives under `graphlib.alg`), so the call
throws a `TypeError` on every invocation and the `catch` returns `false`: the
analyzer reports every node pair, connected or not, as unreachable.
Independently, even a working path query would search the broken
`analyzerEdges` graph, in which no edge touches a real node id (see
`reachSet_analyzerEdges_broken` below), so distinct real nodes would still be
reported unreachable. -/
def isReachable (_topo : SimTopology) (_sourceId _targetId : String) : Bool :=
  false

/-- Spec-side adjacency of the genuine undirected node/link graph: two node
ids joined by some link's endpoints. -/
def linkAdjacent (topo : SimTopology) (a b : String) : Prop :=
  ∃ l ∈ topo.links,
    (l.source.nodeId = a ∧ l.target.nodeId = b) ∨
    (l.source.nodeId = b ∧ l.target.nodeId = a)

/-- Spec-side "same connected component" of the undirected node/link graph. -/
def sameComponent (topo : SimTopology) (a b : String) : Prop :=
  Relation.ReflTransGen (linkAdjacent topo) a b

/-- Every vertex reachable in the graph `buildGraph` actually builds is either
the start vertex or the `"undefined"` key: the broken edge list never reaches
a second real node id. -/
theorem reachSet_analyzerEdges_broken (links : List SimLink) (a : String) :
    ∀ n vs, (∀ x ∈ vs, x = a ∨ x = jsUndefinedKey) →
      ∀ b ∈ reachSet (analyzerEdges links) n vs, b = a ∨ b = jsUndefinedKey := by
  intro n
  induction n with
  | zero => intro vs h b hb; exact h b hb
  | succ n ih =>
    intro vs h b hb
    refine ih (expandReach (analyzerEdges links) vs) ?_ b hb
    intro x hx
    rcases List.mem_append.mp hx with hx | hx
    · exact h x hx
    · have hx' := List.mem_filter.mp hx
      rcases List.mem_flatMap.mp hx'.1 with ⟨v, _, hv⟩
      rcases List.mem_filterMap.mp hv with ⟨e, he, heq⟩
      rcases List.mem_map.mp he with ⟨l, _, rfl⟩
      by_cases h1 : jsUndefinedKey = v
      · simp [h1] at heq
        exact Or.inr ((h1.trans heq).symm)
      · simp [h1] at heq

-- ======================================================================
-- Simulator.ts — driver state, dispatch, and main loop
-- ======================================================================

/-- Per-switch MAC tables (`Map<string, MacTable>`), as an association list. -/
abbrev MacTables := List (String × MacTable)

/-- `Map.get` on the per-switch table map. -/
def tablesGet (ts : MacTables) (k : String) : Option MacTable :=
  (ts.find? (fun p => p.1 = k)).map (·.2)

/-- `Map.set` on the per-switch table map. -/
def tablesSet (ts : MacTables) (k : String) (v : MacTable) : MacTables :=
  if ts.any (fun p => p.1 = k) then
    ts.map (fun p => if p.1 = k then (k, v) else p)
  else
    ts ++ [(k, v)]

/-- The constructor loop of `Simulator`: an empty MAC table per switch node. -/
def initMacTables (topo : SimTopology) : MacTables :=
  topo.nodes.filterMap (fun n =>
    if n.type = .«switch» then some (n.id, ([] : MacTable)) else none)

/-- Is the node type one the `DeviceFactory` maps to `HostDevice` (the
`instanceof HostDevice` test of `simulate`)? -/
def hostLike (t : NodeType) : Bool :=
  t = .host ∨ t = .phone ∨ t = .server ∨ t = .laptop

/-- `Simulator.processAtDevice`: type-indexed dispatch; only a switch receives
(and may update) its MAC table, and only a switch can mint a learn-packet id
(the counter). -/
def processAtDevice (links : List SimLink) (node : SimNode) (interfaceId : String)
    (pkt : Packet) (time : Nat) (macTables : MacTables) (counter : Nat) :
    DeviceProcessResult × MacTables × Nat :=
  match node.type with
  | .host | .phone | .server | .laptop =>
    (hostProcessPacket node interfaceId pkt links time, macTables, counter)
  | .cloud => (cloudProcessPacket node interfaceId pkt links time, macTables, counter)
  | .router => (routerProcessPacket node interfaceId pkt links time, macTables, counter)
  | .firewall => (firewallProcessPacket node interfaceId pkt links time, macTables, counter)
  | .«switch» =>
    let r := switchProcessPacket node interfaceId pkt links time
      (tablesGet macTables node.id) counter
    let tables' :=
      match r.2.1 with
      | some t => tablesSet macTables node.id t
      | none => macTables
    (r.1, tables', r.2.2)

/-- The mutable state of `Simulator.simulate`'s main loop: the event queue and
its clock, the visited `(node, interface, packet-id)` keys, the per-switch MAC
tables, the accumulated trace, and the packet-id counter. -/
structure LoopState where
  queue : List SimEvent
  qtime : Nat
  visited : List String
  macTables : MacTables
  trace : List TraceHop
  counter : Nat

/-- The exhaustion classification of `simulate` (queue empty, not delivered):
`blocked` iff the final trace hop is an `acl-deny` or a `drop`, and the reason
is then that hop's reason. -/
def classifyRun (trace : List TraceHop) : SimulationResult :=
  match trace.getLast? with
  | some lastTrace =>
    let wasBlocked := lastTrace.action = .aclDeny ∨ lastTrace.action = .drop
    { success := false, delivered := false, blocked := wasBlocked, loop := false,
      trace := trace,
      reason := if wasBlocked then lastTrace.reason else "Packet did not reach destination" }
  | none =>
    { success := false, delivered := false, blocked := false, loop := false,
      trace := trace, reason := "Packet did not reach destination" }

/-- One iteration of `Simulator.simulate`'s `while` loop. The queue-empty
case exits the loop into the exhaustion classification; otherwise the head
event is dequeued (the second component counts dequeues: 1), the clock ticks,
the visited `(node, interface, packet-id)` key is checked (loop failure), the
owning device processes the event (a missing device `continue`s), its trace
is appended, a delivery returns the success result, and otherwise the
produced events are enqueued stamped with the current clock. `Sum.inl` is a
`return` out of the loop, `Sum.inr` the state for the next iteration. -/
def simStep (topo : SimTopology) (st : LoopState) :
    (SimulationResult ⊕ LoopState) × Nat :=
  match st.queue with
  | [] => (.inl (classifyRun st.trace), 0)
  | event :: rest =>
    let qtime' := st.qtime + 1
    let stateKey := event.nodeId ++ "-" ++ event.interfaceId ++ "-" ++ event.packet.id
    if stateKey ∈ st.visited then
      (.inl { success := false, delivered := false, blocked := false, loop := true,
              trace := st.trace, reason := "Loop detected" }, 1)
    else
      let visited' := st.visited ++ [stateKey]
      match getNodeById topo.nodes event.nodeId with
      | none =>
        (.inr { st with queue := rest, qtime := qtime', visited := visited' }, 1)
      | some node =>
        let p := processAtDevice topo.links node event.interfaceId event.packet
          qtime' st.macTables st.counter
        let trace' := st.trace ++ p.1.trace
        if p.1.delivered then
          (.inl { success := true, delivered := true, blocked := false, loop := false,
                  trace := trace', reason := "Packet delivered to " ++ node.label }, 1)
        else
          let newEvents := p.1.events.map (fun e =>
            ({ packet := e.packet, nodeId := e.nodeId, interfaceId := e.interfaceId,
               time := qtime' } : SimEvent))
          (.inr { queue := rest ++ newEvents, qtime := qtime', visited := visited',
                  macTables := p.2.1, trace := trace', counter := p.2.2 }, 1)

/-- The main loop of `Simulator.simulate`. The fuel is `maxHops - hops`
(`hops` increments once per dequeue, so the `while` guard `hops < maxHops` is
exactly fuel exhaustion, and exhaustion with the loop still live returns the
max-hops failure); the second component counts dequeued events. -/
def simLoop (topo : SimTopology) : Nat → LoopState → SimulationResult × Nat
  | 0, st =>
    ({ success := false, delivered := false, blocked := false, loop := true,
       trace := st.trace, reason := "Max hops exceeded (possible loop)" }, 0)
  | fuel + 1, st =>
    match simStep topo st with
    | (.inl res, c) => (res, c)
    | (.inr st', c) =>
      let r := simLoop topo fuel st'
      (r.1, r.2 + c)

/-- A failure result with an empty trace (the early-return shape of
`simulate`). -/
def failResult (reason : String) : SimulationResult :=
  { success := false, delivered := false, blocked := false, loop := false,
    trace := [], reason := reason }

/-- The seed-and-run tail of `Simulator.simulate` (everything after the node
lookups and the reachability pre-check): reject non-host sources, read the
destination's first-interface MAC (`|| broadcast`) and IP
(`packetSpec.dstIp || dstIface?.ip?.split('/')[0] || ''`), synthesize and
enqueue the initial packet via `sendPacket`, then run the main loop with fuel
`maxHops`. -/
def runSimulation (topo : SimTopology) (packetSpec : PacketSpec)
    (options : SimulationOptions) (srcNode dstNode : SimNode) :
    SimulationResult × Nat :=
  if hostLike srcNode.type then
    let dstIface := dstNode.interfaces.head?
    let dstMac := jsOrStr (dstIface.map (·.mac)) "FF:FF:FF:FF:FF:FF"
    let dstIp := jsOrStr packetSpec.dstIp
      (jsOrStr (dstIface.bind (fun i => i.ip.map ipPart)) "")
    let sendResult := hostSendPacket srcNode dstMac dstIp topo.links 0
      (jsOrStr packetSpec.proto "icmp") packetSpec.srcPort packetSpec.dstPort
      ("pkt-" ++ toString 0)
    let counter1 : Nat := match srcNode.interfaces.head? with | none => 0 | some _ => 1
    let st : LoopState :=
      { queue := sendResult.events.map (fun e =>
          ({ packet := e.packet, nodeId := e.nodeId, interfaceId := e.interfaceId,
             time := 0 } : SimEvent)),
        qtime := 0, visited := [], macTables := initMacTables topo,
        trace := sendResult.trace, counter := counter1 }
    simLoop topo options.maxHops st
  else
    (failResult "Source must be a host device (host, phone, server, laptop)", 0)

/-- `Simulator.simulate` together with the number of dequeued events: find the
source and destination nodes, run the reachability pre-check, then seed and
run the loop. -/
def simulateWithCount (topo : SimTopology) (packetSpec : PacketSpec)
    (options : SimulationOptions) : SimulationResult × Nat :=
  match getNodeById topo.nodes packetSpec.srcNodeId with
  | none => (failResult ("Source node " ++ packetSpec.srcNodeId ++ " not found"), 0)
  | some srcNode =>
    match getNodeById topo.nodes packetSpec.dstNodeId with
    | none => (failResult ("Destination node " ++ packetSpec.dstNodeId ++ " not found"), 0)
    | some dstNode =>
      if ¬ isReachable topo srcNode.id dstNode.id then
        (failResult ("No path exists between " ++ srcNode.label ++ " and " ++ dstNode.label), 0)
      else
        runSimulation topo packetSpec options srcNode dstNode

/-- `Simulator.simulate`: the simulation result alone. -/
def simulate (topo : SimTopology) (packetSpec : PacketSpec)
    (options : SimulationOptions) : SimulationResult :=
  (simulateWithCount topo packetSpec options).1

-- ======================================================================
-- convertTopology / getInterfaceForConnection (Simulator.ts)
-- ======================================================================

/-- The `data.config` blob of an editor node: every field optional. -/
structure FlowConfig where
  interfaces : Option (List SimInterface) := none
  macLearning : Option Bool := none
  vlanDatabase : Option (List Nat) := none
  staticRoutes : Option (List StaticRoute) := none
  aclRules : Option (List AclRule) := none
  defaultPolicy : Option AclAction := none
deriving DecidableEq, Repr

/-- An editor (React Flow) node as `convertTopology` reads it: `id`,
`data.type`, `data.label`, and the optional `data.config`. -/
structure FlowNode where
  id : String
  type : NodeType
  label : String
  config : Option FlowConfig := none
deriving DecidableEq, Repr

/-- An editor edge as `convertTopology` reads it: endpoint node ids and the
optional handle ids. -/
structure FlowEdge where
  id : String
  source : String
  target : String
  sourceHandle : Option String := none
  targetHandle : Option String := none
deriving DecidableEq, Repr

/-- The per-node projection of `convertTopology`:
`interfaces: node.data.config?.interfaces || []` (an array is truthy, so the
default fires only when the field is absent) and optional passthrough of the
type-specific fields. -/
def flowNodeToSimNode (n : FlowNode) : SimNode :=
  { id := n.id, type := n.type, label := n.label,
    interfaces := (n.config.bind (·.interfaces)).getD [],
    macLearning := n.config.bind (·.macLearning),
    vlanDatabase := n.config.bind (·.vlanDatabase),
    staticRoutes := n.config.bind (·.staticRoutes),
    aclRules := n.config.bind (·.aclRules),
    defaultPolicy := n.config.bind (·.defaultPolicy) }

/-- `getInterfaceForConnection` (Simulator.ts): when the node exists and the
raw handle id is truthy and names one of its interfaces, use the handle id
verbatim; otherwise fall back to the first interface id (`|| 'eth0'`); with no
node, `'eth0'`. Note the handle id is compared as-is — no suffix is removed. -/
def getInterfaceForConnection (nodes : List SimNode) (nodeId : String)
    (handleId : Option String) : String :=
  match nodes.find? (fun n => n.id = nodeId) with
  | none => "eth0"
  | some node =>
    if strTruthy handleId ∧ node.interfaces.any (fun i => i.id = handleId.getD "") then
      handleId.getD ""
    else
      jsOrStr (node.interfaces.head?.map (·.id)) "eth0"

/-- `convertTopology` (Simulator.ts): project the editor nodes, then build one
`SimLink` per edge with interface ids resolved by
`getInterfaceForConnection`. -/
def convertTopology (nodes : List FlowNode) (edges : List FlowEdge) : SimTopology :=
  let simNodes := nodes.map flowNodeToSimNode
  { nodes := simNodes,
    links := edges.map (fun e =>
      { id := e.id,
        source := ⟨e.source, getInterfaceForConnection simNodes e.source e.sourceHandle⟩,
        target := ⟨e.target, getInterfaceForConnection simNodes e.target e.targetHandle⟩ }) }

/-- Strip a trailing `-source` or `-target` suffix from a handle id (the
behaviour the specification describes for the conversion, and which
`validators.ts`'s `getPortId` implements for connection validation). -/
def stripHandleSuffix (h : String) : String :=
  if endsWithStr h "-source" then dropRightStr h 7
  else if endsWithStr h "-target" then dropRightStr h 7
  else h

/-- The endpoint-interface resolution as the specification words it (a
comparison definition for the conversion claim, not part of the code
embedding): strip the suffix from the handle id, use the stripped id when it
names an interface of the node, otherwise the node's first interface id,
defaulting to `eth0`. -/
def specStrippedInterfaceForConnection (nodes : List SimNode) (nodeId : String)
    (handleId : Option String) : String :=
  match nodes.find? (fun n => n.id = nodeId) with
  | none => "eth0"
  | some node =>
    match handleId with
    | some h =>
      let s := stripHandleSuffix h
      if node.interfaces.any (fun i => i.id = s) then s
      else jsOrStr (node.interfaces.head?.map (·.id)) "eth0"
    | none => jsOrStr (node.interfaces.head?.map (·.id)) "eth0"

-- ======================================================================
-- Spec-side predicates and CIDR arithmetic bridge
-- ======================================================================

/-- The egress-admissibility predicate exactly as the claim words it: an
access port whose configured VLAN equals `v`, or a trunk port with no
allowed-VLAN restriction or with `v` listed. (No clause for interfaces
without a configured port mode.) -/
def claimAdmissible (iface : SimInterface) (v : Nat) : Prop :=
  (iface.portMode = some .access ∧ iface.vlan = some v) ∨
  (iface.portMode = some .trunk ∧
    (iface.allowedVlans = none ∨ v ∈ iface.allowedVlans.getD []))

instance (iface : SimInterface) (v : Nat) : Decidable (claimAdmissible iface v) := by
  unfold claimAdmissible; infer_instance

/-- Egress admissibility as the code computes it, with the additional default
arm made explicit: an interface with no configured port mode transmits exactly
for VLAN 1. -/
def amendedAdmissible (iface : SimInterface) (v : Nat) : Prop :=
  claimAdmissible iface v ∨ (iface.portMode = none ∧ v = 1)

instance (iface : SimInterface) (v : Nat) : Decidable (amendedAdmissible iface v) := by
  unfold amendedAdmissible; infer_instance

/-- Standard CIDR containment on unsigned-32 addresses: the top `len` bits
(equivalently, the quotients by `2^(32-len)`) agree. -/
def cidrContains (d s : Nat) (len : Nat) : Prop :=
  d / 2 ^ (32 - len) = s / 2 ^ (32 - len)

/-- The prefix mask is the shifted all-ones block. -/
theorem mask_decomp (k : Nat) (hk : k ≤ 32) :
    4294967296 - 2 ^ k = (2 ^ (32 - k) - 1) <<< k := by
  rw [Nat.shiftLeft_eq, Nat.sub_mul, one_mul, ← pow_add]
  have h : 32 - k + k = 32 := by omega
  rw [h]
  norm_num

/-- Masking with the prefix mask zeroes the low `k` bits:
`x &&& (2^32 - 2^k) = (x >>> k) <<< k` for `x < 2^32`. -/
theorem land_prefix_mask (x k : Nat) (hx : x < 4294967296) (hk : k ≤ 32) :
    x &&& (4294967296 - 2 ^ k) = (x >>> k) <<< k := by
  apply Nat.eq_of_testBit_eq
  intro j
  rw [mask_decomp k hk]
  simp only [Nat.testBit_and, Nat.testBit_shiftLeft, Nat.testBit_shiftRight,
    Nat.testBit_two_pow_sub_one]
  by_cases hjk : k ≤ j
  · have hkj : k + (j - k) = j := by omega
    by_cases hj32 : j < 32
    · have h1 : j - k < 32 - k := by omega
      simp [hjk, hkj, h1]
    · have hxj : x.testBit j = false := by
        apply Nat.testBit_lt_two_pow
        calc x < 4294967296 := hx
        _ = 2 ^ 32 := by norm_num
        _ ≤ 2 ^ j := Nat.pow_le_pow_right (by norm_num) (by omega)
      simp [hjk, hkj, hxj]
  · simp [hjk]

/-- Equality of prefix-masked addresses is equality of the top bits. -/
theorem land_prefix_mask_eq_iff (x y k : Nat) (hx : x < 4294967296)
    (hy : y < 4294967296) (hk : k ≤ 32) :
    (x &&& (4294967296 - 2 ^ k) = y &&& (4294967296 - 2 ^ k)) ↔
      x / 2 ^ k = y / 2 ^ k := by
  rw [land_prefix_mask x k hx hk, land_prefix_mask y k hy hk,
    Nat.shiftLeft_eq, Nat.shiftLeft_eq, Nat.shiftRight_eq_div_pow,
    Nat.shiftRight_eq_div_pow]
  constructor
  · intro h
    exact Nat.eq_of_mul_eq_mul_right (Nat.pos_pow_of_pos k (by norm_num)) h
  · intro h
    rw [h]

/-- A parsed address is a 32-bit value. -/
theorem ipToNumber_lt (ip : String) (n : Nat) (h : ipToNumber ip = some n) :
    n < 4294967296 := by
  simp only [ipToNumber] at h
  split at h
  case _ a b c d _ _ _ _ =>
    have hn := (Option.some.injEq _ _).mp h
    have h32 : (4294967296 : Nat) = 2 ^ 32 := by norm_num
    subst hn
    rw [h32]
    apply Nat.or_lt_two_pow _ _
    · apply Nat.or_lt_two_pow _ _
      · apply Nat.or_lt_two_pow _ _
        · rw [← h32]; exact Nat.mod_lt _ (by norm_num)
        · rw [← h32]; exact Nat.mod_lt _ (by norm_num)
      · rw [← h32]; exact Nat.mod_lt _ (by norm_num)
    · rw [← h32]; exact Nat.mod_lt _ (by norm_num)
  case _ => exact absurd h (by simp)

/-- For a valid prefix length `1 ≤ l ≤ 32`, the JS mask computation yields the
standard prefix mask. -/
theorem prefixToMask_valid (l : Int) (h1 : 1 ≤ l) (h32 : l ≤ 32) :
    prefixToMask (some l) = 4294967296 - 2 ^ (32 - l.toNat) := by
  unfold prefixToMask
  have hne : ¬ l = 0 := by omega
  simp only [hne, if_false]
  congr 2
  omega

/-- `ipInSubnet` is standard CIDR containment (all prefix bits compared) as
soon as the address, the subnet base, and the prefix length parse and the
length is in `1..32`. -/
theorem ipInSubnet_standard (ip cidr : String) (d s : Nat) (l : Int)
    (hd : ipToNumber ip = some d)
    (hs : ipToNumber (ipPart cidr) = some s)
    (hl : (cidrLenPart cidr).bind parseIntJs = some l)
    (h1 : 1 ≤ l) (h32 : l ≤ 32) :
    (ipInSubnet ip cidr = true) ↔ cidrContains d s l.toNat := by
  unfold ipInSubnet cidrContains
  rw [hd, hs, hl, prefixToMask_valid l h1 h32]
  simp only [andMask, decide_eq_true_eq]
  exact land_prefix_mask_eq_iff d s (32 - l.toNat)
    (ipToNumber_lt ip d hd) (ipToNumber_lt (ipPart cidr) s hs) (by omega)

-- ======================================================================
-- Concrete demonstration inputs
-- ======================================================================

/-- A host with one interface `eth0`, `10.0.0.1/24`. -/
def demoHostA : SimNode :=
  { id := "hostA", type := .host, label := "Host A",
    interfaces := [{ id := "eth0", mac := "02:AA:00:00:00:01", ip := some "10.0.0.1/24" }] }

/-- A host with one interface `eth0`, `10.0.0.2/24`. -/
def demoHostB : SimNode :=
  { id := "hostB", type := .host, label := "Host B",
    interfaces := [{ id := "eth0", mac := "02:AA:00:00:00:02", ip := some "10.0.0.2/24" }] }

/-- Two hosts joined by one link — a connected topology. -/
def demoLinkedTopo : SimTopology :=
  { nodes := [demoHostA, demoHostB],
    links := [{ id := "l1", source := ⟨"hostA", "eth0"⟩, target := ⟨"hostB", "eth0"⟩ }] }

/-- Ping from `hostA` to `hostB`. -/
def demoSpecAB : PacketSpec := { srcNodeId := "hostA", dstNodeId := "hostB" }

/-- C1 — **code bug**. The spec's reachability pre-check is supposed to fail
exactly for source/destination in different connected components. In the code
it always fails: `GraphAnalyzer.isReachable` calls `this.graph.path(...)`, a
method `graphlib`'s `Graph` does not have, so every call throws and the
`catch` returns `false` (and independently `buildGraph` inserts every edge
under `undefined` endpoint keys, since `SimLink` has no
`sourceNodeId`/`targetNodeId` fields). Hence for two hosts joined by one link
— the same connected component of the node/link graph — `simulate` returns
the `"No path exists ..."` failure with an empty trace instead of seeding and
dispatching the initial packet. -/
theorem c1_reachability_precheck_code_bug :
    sameComponent demoLinkedTopo "hostA" "hostB" ∧
    simulate demoLinkedTopo demoSpecAB DEFAULT_SIM_OPTIONS =
      failResult "No path exists between Host A and Host B" := by
  constructor
  · apply Relation.ReflTransGen.single
    refine ⟨{ id := "l1", source := ⟨"hostA", "eth0"⟩, target := ⟨"hostB", "eth0"⟩ }, ?_, ?_⟩
    · simp [demoLinkedTopo]
    · exact Or.inl ⟨rfl, rfl⟩
  · decide

-- ======================================================================
-- C2 — the `blocked` classification at queue exhaustion
-- ======================================================================

/-- Is the final trace hop an `acl-deny` or a `drop`? (The condition
`simulate` computes as `wasBlocked`.) -/
def lastHopIsAclDenyOrDrop (trace : List TraceHop) : Bool :=
  match trace.getLast? with
  | some h => h.action = .aclDeny ∨ h.action = .drop
  | none => false

/-- The exhaustion classification never reports a delivery. -/
theorem classifyRun_delivered (t : List TraceHop) : (classifyRun t).delivered = false := by
  unfold classifyRun
  split <;> rfl

/-- The exhaustion classification never reports a loop. -/
theorem classifyRun_loop (t : List TraceHop) : (classifyRun t).loop = false := by
  unfold classifyRun
  split <;> rfl

/-- The exhaustion classification returns the accumulated trace. -/
theorem classifyRun_trace (t : List TraceHop) : (classifyRun t).trace = t := by
  unfold classifyRun
  split <;> rfl

/-- The exhaustion classification's `blocked` is exactly the final-hop test. -/
theorem classifyRun_blocked (t : List TraceHop) :
    (classifyRun t).blocked = lastHopIsAclDenyOrDrop t := by
  unfold classifyRun lastHopIsAclDenyOrDrop
  split <;> rfl

/-- A loop-iteration exit is a delivery, a loop failure, or the queue-empty
classification of the state's trace. -/
theorem simStep_inl_cases (topo : SimTopology) (st : LoopState)
    (res : SimulationResult) (c : Nat) (h : simStep topo st = (.inl res, c)) :
    res.delivered = true ∨ res.loop = true ∨ res = classifyRun st.trace := by
  unfold simStep at h
  split at h
  · right; right
    have := (Prod.mk.injEq _ _ _ _).mp h
    exact (Sum.inl.injEq _ _).mp this.1 |>.symm
  · dsimp only at h
    split at h
    · right; left
      have := (Prod.mk.injEq _ _ _ _).mp h
      have hres := (Sum.inl.injEq _ _).mp this.1
      rw [← hres]
    · split at h
      · exact absurd ((Prod.mk.injEq _ _ _ _).mp h).1 (by simp)
      · split at h
        · left
          have := (Prod.mk.injEq _ _ _ _).mp h
          have hres := (Sum.inl.injEq _ _).mp this.1
          rw [← hres]
        · exact absurd ((Prod.mk.injEq _ _ _ _).mp h).1 (by simp)

/-- Each loop iteration dequeues at most one event. -/
theorem simStep_snd_le_one (topo : SimTopology) (st : LoopState) :
    (simStep topo st).2 ≤ 1 := by
  unfold simStep
  split
  · simp
  · dsimp only
    split
    · simp
    · split
      · simp
      · split <;> simp

/-- A host whose single interface is tagged VLAN 10. -/
def demoHostAVlan10 : SimNode :=
  { id := "hostA", type := .host, label := "Host A",
    interfaces := [{ id := "eth0", mac := "02:AA:00:00:00:01", ip := some "10.0.0.1/24",
                     vlan := some 10 }] }

/-- A switch whose ingress port is a trunk allowing only VLAN 20 and whose
egress port is access VLAN 20. -/
def demoTrunkSwitch : SimNode :=
  { id := "sw1", type := .«switch», label := "Switch 1",
    interfaces :=
      [{ id := "gi0/1", mac := "02:AA:00:00:00:11", portMode := some .trunk,
         allowedVlans := some [20] },
       { id := "gi0/2", mac := "02:AA:00:00:00:12", portMode := some .access,
         vlan := some 20 }],
    macLearning := some true, vlanDatabase := some [10, 20] }

/-- Host A (VLAN 10) — trunk switch (allows only VLAN 20) — Host B. -/
def demoVlanRejectTopo : SimTopology :=
  { nodes := [demoHostAVlan10, demoTrunkSwitch, demoHostB],
    links := [{ id := "l1", source := ⟨"hostA", "eth0"⟩, target := ⟨"sw1", "gi0/1"⟩ },
              { id := "l2", source := ⟨"sw1", "gi0/2"⟩, target := ⟨"hostB", "eth0"⟩ }] }

/-- C2 — counterexample to the claim as stated. On the VLAN-rejection
topology, the main loop ends with an empty queue and no delivery, the final
trace hop is a `drop` (trunk VLAN rejection), not an ACL deny — yet the
result's `blocked` field is `true`: the code classifies `blocked` by
`action === 'acl-deny' || action === 'drop'`, so a final drop also sets
`blocked`. -/
theorem c2_counterexample_vlan_drop_blocked :
    (runSimulation demoVlanRejectTopo demoSpecAB DEFAULT_SIM_OPTIONS
        demoHostAVlan10 demoHostB).1.delivered = false ∧
    (runSimulation demoVlanRejectTopo demoSpecAB DEFAULT_SIM_OPTIONS
        demoHostAVlan10 demoHostB).1.loop = false ∧
    ((runSimulation demoVlanRejectTopo demoSpecAB DEFAULT_SIM_OPTIONS
        demoHostAVlan10 demoHostB).1.trace.getLast?).map (·.action) = some .drop ∧
    (runSimulation demoVlanRejectTopo demoSpecAB DEFAULT_SIM_OPTIONS
        demoHostAVlan10 demoHostB).1.blocked = true := by
  decide

/-- C2 (amended): when the main loop returns with neither a delivery nor a
loop/hop-cap failure (i.e. the event queue drained), the result's `blocked`
field is true iff the final trace hop is an ACL deny **or a drop** — so a
final `drop` from TTL expiry, VLAN rejection, or an unaddressed packet also
yields `blocked = true`, not only an acl-deny. -/
theorem c2_blocked_iff_last_aclDeny_or_drop (topo : SimTopology) (fuel : Nat)
    (st : LoopState)
    (hdel : (simLoop topo fuel st).1.delivered = false)
    (hloop : (simLoop topo fuel st).1.loop = false) :
    (simLoop topo fuel st).1.blocked =
      lastHopIsAclDenyOrDrop (simLoop topo fuel st).1.trace := by
  induction fuel generalizing st with
  | zero => simp [simLoop] at hloop
  | succ n ih =>
    rcases hstep : simStep topo st with ⟨fst, c⟩
    cases fst with
    | inl res =>
      simp only [simLoop, hstep] at hdel hloop ⊢
      rcases simStep_inl_cases topo st res c hstep with h | h | h
      · rw [h] at hdel; exact absurd hdel (by simp)
      · rw [h] at hloop; exact absurd hloop (by simp)
      · rw [h, classifyRun_blocked, classifyRun_trace]
    | inr st' =>
      simp only [simLoop, hstep] at hdel hloop ⊢
      exact ih st' hdel hloop

/-- C2 witness: the amended classification applied at a concrete loop state
(the empty state: the loop exits through the queue-empty classification). -/
theorem c2_blocked_iff_last_aclDeny_or_drop_witness :
    (simLoop demoVlanRejectTopo 1
        { queue := [], qtime := 0, visited := [], macTables := [("sw1", [])],
          trace := [], counter := 0 }).1.delivered = false ∧
    (simLoop demoVlanRejectTopo 1
        { queue := [], qtime := 0, visited := [], macTables := [("sw1", [])],
          trace := [], counter := 0 }).1.loop = false ∧
    (simLoop demoVlanRejectTopo 1
        { queue := [], qtime := 0, visited := [], macTables := [("sw1", [])],
          trace := [], counter := 0 }).1.blocked =
      lastHopIsAclDenyOrDrop (simLoop demoVlanRejectTopo 1
        { queue := [], qtime := 0, visited := [], macTables := [("sw1", [])],
          trace := [], counter := 0 }).1.trace :=
  ⟨by decide, by decide,
   c2_blocked_iff_last_aclDeny_or_drop demoVlanRejectTopo 1
     { queue := [], qtime := 0, visited := [], macTables := [("sw1", [])],
       trace := [], counter := 0 } (by decide) (by decide)⟩

-- ======================================================================
-- C3 — termination and the dequeue bound
-- ======================================================================

/-- The loop dequeues at most `fuel` events. -/
theorem simLoop_snd_le (topo : SimTopology) (fuel : Nat) (st : LoopState) :
    (simLoop topo fuel st).2 ≤ fuel := by
  induction fuel generalizing st with
  | zero => simp [simLoop]
  | succ n ih =>
    rcases hstep : simStep topo st with ⟨fst, c⟩
    have hc : c ≤ 1 := by
      have := simStep_snd_le_one topo st
      rw [hstep] at this
      exact this
    cases fst with
    | inl res => simp only [simLoop, hstep]; omega
    | inr st' =>
      simp only [simLoop, hstep]
      have := ih st'
      omega

/-- The seed-and-run tail dequeues at most `maxHops` events. -/
theorem runSimulation_snd_le (topo : SimTopology) (spec : PacketSpec)
    (opts : SimulationOptions) (s d : SimNode) :
    (runSimulation topo spec opts s d).2 ≤ opts.maxHops := by
  unfold runSimulation
  split
  · exact simLoop_snd_le _ _ _
  · simp

/-- C3: for every topology, packet spec, and options with `maxHops ≥ 1`,
`simulate` terminates (it is a total function of its inputs) and dequeues at
most `maxHops` events from the event queue before returning. -/
theorem c3_simulate_dequeues_le_maxHops (topo : SimTopology) (spec : PacketSpec)
    (opts : SimulationOptions) (_h : 1 ≤ opts.maxHops) :
    (simulateWithCount topo spec opts).2 ≤ opts.maxHops := by
  unfold simulateWithCount
  split
  · simp
  · split
    · simp
    · split
      · simp
      · exact runSimulation_snd_le _ _ _ _ _

/-- C3 witness: the dequeue bound applied at a concrete topology, spec, and
the default options. -/
theorem c3_simulate_dequeues_le_maxHops_witness :
    1 ≤ DEFAULT_SIM_OPTIONS.maxHops ∧
    (simulateWithCount demoLinkedTopo demoSpecAB DEFAULT_SIM_OPTIONS).2 ≤
      DEFAULT_SIM_OPTIONS.maxHops :=
  ⟨by decide,
   c3_simulate_dequeues_le_maxHops demoLinkedTopo demoSpecAB DEFAULT_SIM_OPTIONS
     (by decide)⟩

-- ======================================================================
-- C5 — longest-prefix match over static routes
-- ======================================================================

/-- The prefix length of a route, with the scan's initial sentinel `-1` for an
unparseable length. -/
def lenD (r : StaticRoute) : Int := (routePrefixLen r).getD (-1)

/-- Characterization of `findBestRoute`'s scan: starting from a best-so-far
satisfying the scan invariant, the result is either the initial best (and no
containing route beats the initial length), or the first containing route of
the list attaining the maximal prefix length among the containing routes
(strictly beating the initial length and every containing route before it). -/
theorem findBestRouteAux_char (dst : String) (rs : List StaticRoute)
    (best : Option StaticRoute) (bestLen : Int)
    (hinv : ∀ b, best = some b →
      ipInSubnet dst b.cidr = true ∧ routePrefixLen b = some bestLen)
    (hwf : ∀ r ∈ rs, ∃ n : Int, routePrefixLen r = some n ∧ 0 ≤ n) :
    (findBestRouteAux dst rs best bestLen = best ∧
      ∀ r ∈ rs, ipInSubnet dst r.cidr = true → lenD r ≤ bestLen) ∨
    (∃ r, findBestRouteAux dst rs best bestLen = some r ∧ r ∈ rs ∧
      ipInSubnet dst r.cidr = true ∧ bestLen < lenD r ∧
      (∀ r' ∈ rs, ipInSubnet dst r'.cidr = true → lenD r' ≤ lenD r) ∧
      (∃ pre post, rs = pre ++ r :: post ∧
        ∀ r' ∈ pre, ipInSubnet dst r'.cidr = true → lenD r' < lenD r)) := by
  induction rs generalizing best bestLen with
  | nil => exact Or.inl ⟨rfl, by simp⟩
  | cons r rest ih =>
    rcases hwf r (by simp) with ⟨n, hn, hn0⟩
    have hlenD : lenD r = n := by simp [lenD, hn]
    have hwf' : ∀ r' ∈ rest, ∃ m : Int, routePrefixLen r' = some m ∧ 0 ≤ m :=
      fun r' h' => hwf r' (by simp [h'])
    by_cases hpick : (ipInSubnet dst r.cidr = true ∧ jsGtBest (routePrefixLen r) bestLen = true)
    · have hgt : bestLen < n := by
        have := hpick.2
        rw [hn] at this
        simpa [jsGtBest] using this
      have hstep : findBestRouteAux dst (r :: rest) best bestLen =
          findBestRouteAux dst rest (some r) n := by
        conv_lhs => unfold findBestRouteAux
        have hgetD : (routePrefixLen r).getD bestLen = n := by simp [hn]
        simp [hpick.1, hpick.2, hgetD]
      have hinv' : ∀ b, (some r : Option StaticRoute) = some b →
          ipInSubnet dst b.cidr = true ∧ routePrefixLen b = some n := by
        intro b hb
        cases hb
        exact ⟨hpick.1, hn⟩
      rcases ih (some r) n hinv' hwf' with ⟨heq, hmax⟩ | ⟨r2, hres, hmem, hcont, hlt, hmax, pre, post, hsplit, hstrict⟩
      · refine Or.inr ⟨r, ?_, by simp, hpick.1, by omega, ?_, [], rest, rfl, by simp⟩
        · rw [hstep, heq]
        · intro r' hr' hc'
          rcases List.mem_cons.mp hr' with h | h
          · subst h; omega
          · have := hmax r' h hc'
            omega
      · have hlt2 : n < lenD r2 := by
          rcases hwf' r2 hmem with ⟨m, hm, _⟩
          simpa [lenD, hm] using hlt
        refine Or.inr ⟨r2, ?_, by simp [hmem], hcont, by omega, ?_, r :: pre, post, by simp [hsplit], ?_⟩
        · rw [hstep, hres]
        · intro r' hr' hc'
          rcases List.mem_cons.mp hr' with h | h
          · subst h; omega
          · exact hmax r' h hc'
        · intro r' hr' hc'
          rcases List.mem_cons.mp hr' with h | h
          · subst h; omega
          · exact hstrict r' h hc'
    · have hnopick : ipInSubnet dst r.cidr = true → n ≤ bestLen := by
        intro hc
        by_contra hcon
        refine hpick ⟨hc, ?_⟩
        simp only [jsGtBest, hn, decide_eq_true_eq]
        omega
      have hstep : findBestRouteAux dst (r :: rest) best bestLen =
          findBestRouteAux dst rest best bestLen := by
        conv_lhs => unfold findBestRouteAux
        rcases Decidable.em (ipInSubnet dst r.cidr = true) with hc | hc
        · have hfalse : jsGtBest (routePrefixLen r) bestLen = false := by
            have := hnopick hc
            simp only [jsGtBest, hn, decide_eq_false_iff_not]
            omega
          simp [hc, hfalse]
        · simp only [Bool.not_eq_true] at hc
          simp [hc]
      rcases ih best bestLen hinv hwf' with ⟨heq, hmax⟩ | ⟨r2, hres, hmem, hcont, hlt, hmax, pre, post, hsplit, hstrict⟩
      · refine Or.inl ⟨by rw [hstep, heq], ?_⟩
        intro r' hr' hc'
        rcases List.mem_cons.mp hr' with h | h
        · subst h
          rw [hlenD]
          exact hnopick hc'
        · exact hmax r' h hc'
      · refine Or.inr ⟨r2, ?_, by simp [hmem], hcont, hlt, ?_, r :: pre, post, by simp [hsplit], ?_⟩
        · rw [hstep, hres]
        · intro r' hr' hc'
          rcases List.mem_cons.mp hr' with h | h
          · subst h
            have := hnopick hc'
            omega
          · exact hmax r' h hc'
        · intro r' hr' hc'
          rcases List.mem_cons.mp hr' with h | h
          · subst h
            have := hnopick hc'
            omega
          · exact hstrict r' h hc'

/-- C5: for a non-empty static-route list (with parseable, non-negative prefix
lengths) and a destination IP, `findBestRoute` selects no route iff no route's
prefix contains the destination; otherwise it selects a containing route whose
prefix length is maximal among all containing routes, and among those of
maximal length the one occurring first in the configured list (every earlier
containing route has a strictly smaller prefix length). -/
theorem c5_longest_prefix_match (rs : List StaticRoute) (dst : String)
    (_hne : rs ≠ [])
    (hwf : ∀ r ∈ rs, ∃ n : Int, routePrefixLen r = some n ∧ 0 ≤ n) :
    (findBestRoute (some rs) dst = none → ∀ r ∈ rs, ipInSubnet dst r.cidr = false) ∧
    (∀ r, findBestRoute (some rs) dst = some r →
      r ∈ rs ∧ ipInSubnet dst r.cidr = true ∧
      (∀ r' ∈ rs, ipInSubnet dst r'.cidr = true → lenD r' ≤ lenD r) ∧
      ∃ pre post, rs = pre ++ r :: post ∧
        ∀ r' ∈ pre, ipInSubnet dst r'.cidr = true → lenD r' < lenD r) := by
  have haux : findBestRoute (some rs) dst = findBestRouteAux dst rs none (-1) := rfl
  have hchar := findBestRouteAux_char dst rs none (-1)
    (by intro b hb; cases hb) hwf
  rcases hchar with ⟨heq, hmax⟩ | ⟨r, hres, hmem, hcont, _, hmax, pre, post, hsplit, hstrict⟩
  · constructor
    · intro _ r hr
      by_contra hc
      simp only [Bool.not_eq_false] at hc
      have h1 := hmax r hr hc
      rcases hwf r hr with ⟨n, hn, hn0⟩
      simp only [lenD, hn, Option.getD_some] at h1
      omega
    · intro r hr
      rw [haux, heq] at hr
      cases hr
  · constructor
    · intro h0
      rw [haux, hres] at h0
      cases h0
    · intro r' hr'
      rw [haux, hres] at hr'
      have hrr : r = r' := (Option.some.injEq _ _).mp hr'
      subst hrr
      exact ⟨hmem, hcont, hmax, pre, post, hsplit, hstrict⟩

/-- A demonstration route list with overlapping prefixes. -/
def demoRoutes : List StaticRoute :=
  [{ cidr := "10.0.0.0/8", nextHop := "1.1.1.1", outInterface := "e1" },
   { cidr := "10.0.1.0/24", nextHop := "2.2.2.2", outInterface := "e2" },
   { cidr := "10.0.0.0/24", nextHop := "3.3.3.3", outInterface := "e3" }]

/-- C5 witness: the longest-prefix theorem applied at the concrete overlapping
route list and destination `10.0.1.5` (all hypotheses discharged by
evaluation). -/
theorem c5_longest_prefix_match_witness :
    (findBestRoute (some demoRoutes) "10.0.1.5" = none →
      ∀ r ∈ demoRoutes, ipInSubnet "10.0.1.5" r.cidr = false) ∧
    (∀ r, findBestRoute (some demoRoutes) "10.0.1.5" = some r →
      r ∈ demoRoutes ∧ ipInSubnet "10.0.1.5" r.cidr = true ∧
      (∀ r' ∈ demoRoutes, ipInSubnet "10.0.1.5" r'.cidr = true → lenD r' ≤ lenD r) ∧
      ∃ pre post, demoRoutes = pre ++ r :: post ∧
        ∀ r' ∈ pre, ipInSubnet "10.0.1.5" r'.cidr = true → lenD r' < lenD r) :=
  c5_longest_prefix_match demoRoutes "10.0.1.5" (by decide)
    (by
      intro r hr
      simp only [demoRoutes, List.mem_cons, List.not_mem_nil, or_false] at hr
      rcases hr with rfl | rfl | rfl
      · exact ⟨8, by decide, by decide⟩
      · exact ⟨24, by decide, by decide⟩
      · exact ⟨24, by decide, by decide⟩)

-- ======================================================================
-- C7 — ordered ACL evaluation
-- ======================================================================

instance : IsTotal AclRule (fun a b => a.order ≤ b.order) :=
  ⟨fun a b => Int.le_total a.order b.order⟩

instance : IsTrans AclRule (fun a b => a.order ≤ b.order) :=
  ⟨fun _ _ _ h1 h2 => le_trans h1 h2⟩

/-- The first element satisfying `p` found by `find?` splits the list: nothing
before it satisfies `p`. -/
theorem find?_first_decomp {α : Type} (p : α → Bool) :
    ∀ (l : List α) (x : α), l.find? p = some x →
      p x = true ∧ ∃ pre post, l = pre ++ x :: post ∧ ∀ y ∈ pre, p y = false := by
  intro l
  induction l with
  | nil => intro x h; cases h
  | cons a rest ih =>
    intro x h
    by_cases hpa : p a = true
    · rw [List.find?_cons_of_pos _ hpa] at h
      have hax : a = x := (Option.some.injEq _ _).mp h
      subst hax
      exact ⟨hpa, [], rest, rfl, by simp⟩
    · have hpa' : ¬ p a := by simpa using hpa
      rw [List.find?_cons_of_neg _ hpa'] at h
      rcases ih x h with ⟨hx, pre, post, heq, hpre⟩
      refine ⟨hx, a :: pre, post, by simp [heq], ?_⟩
      intro y hy
      rcases List.mem_cons.mp hy with rfl | hy
      · simpa using hpa'
      · exact hpre y hy

/-- C7: ACL evaluation considers the rules sorted ascending by `order` (the
sorted list is a permutation of the configured rules, ascending in `order`); a
packet matches a rule iff every configured clause — proto, src-ip, dst-ip,
src-port, dst-port — matches; the first matching rule of the sorted list
decides the action (with `matched = true` and that rule reported), and when no
rule matches the default policy applies. -/
theorem c7_acl_first_match_default (rules : List AclRule) (defPol : AclAction)
    (pkt : Packet) :
    (sortRules rules).Perm rules ∧
    (sortRules rules).Sorted (fun a b => a.order ≤ b.order) ∧
    (∀ r, (matchAclRules rules defPol pkt).2.2 = some r →
      matchesRule pkt r = true ∧
      (matchAclRules rules defPol pkt).1 = true ∧
      (matchAclRules rules defPol pkt).2.1 = r.action ∧
      ∃ pre post, sortRules rules = pre ++ r :: post ∧
        ∀ r' ∈ pre, matchesRule pkt r' = false) ∧
    ((∀ r ∈ rules, matchesRule pkt r = false) →
      matchAclRules rules defPol pkt = (false, defPol, none)) ∧
    (∀ r : AclRule, matchesRule pkt r =
      (!protoClauseFails r pkt && !ipClauseFails r.srcIp pkt.srcIp &&
       !ipClauseFails r.dstIp pkt.dstIp && !portClauseFails r.srcPort pkt.srcPort &&
       !portClauseFails r.dstPort pkt.dstPort)) := by
  have hdef : ∀ dp : AclAction, matchAclRules rules dp pkt =
      match (sortRules rules).find? (fun r => matchesRule pkt r) with
      | some r => (true, r.action, some r)
      | none => (false, dp, none) := fun _ => rfl
  refine ⟨List.perm_insertionSort _ _, List.sorted_insertionSort _ _, ?_, ?_, ?_⟩
  · intro r hr
    rw [hdef] at hr
    cases hfind : (sortRules rules).find? (fun x => matchesRule pkt x) with
    | none => simp [hfind] at hr
    | some rf =>
      simp only [hfind] at hr
      have hrf : rf = r := by simpa using hr
      subst hrf
      rcases find?_first_decomp _ (sortRules rules) rf hfind with ⟨hx, pre, post, heq, hpre⟩
      refine ⟨hx, ?_, ?_, pre, post, heq, hpre⟩
      · rw [hdef, hfind]
      · rw [hdef, hfind]
  · intro hnone
    rw [hdef]
    have hfnone : (sortRules rules).find? (fun r => matchesRule pkt r) = none := by
      rw [List.find?_eq_none]
      intro x hx
      have hx' : x ∈ rules := (List.perm_insertionSort _ _).mem_iff.mp hx
      simp [hnone x hx']
    rw [hfnone]
  · intro r
    unfold matchesRule
    cases h1 : protoClauseFails r pkt <;>
      cases h2 : ipClauseFails r.srcIp pkt.srcIp <;>
        cases h3 : ipClauseFails r.dstIp pkt.dstIp <;>
          cases h4 : portClauseFails r.srcPort pkt.srcPort <;>
            cases h5 : portClauseFails r.dstPort pkt.dstPort <;>
              simp [h1, h2, h3, h4, h5]

/-- A demonstration rule list (configured out of order). -/
def demoAclRules : List AclRule :=
  [{ id := "r2", order := 2, action := .allow },
   { id := "r1", order := 1, action := .deny, proto := some "icmp",
     dstIp := some "10.0.0.2" }]

/-- A demonstration ICMP packet. -/
def demoIcmpPkt : Packet :=
  { id := "pkt-0", srcMac := "02:AA:00:00:00:01", dstMac := "02:AA:00:00:00:02",
    srcIp := some "10.0.0.1", dstIp := some "10.0.0.2", proto := "icmp", ttl := 64 }

/-- C7 witness: the evaluation theorem applied at a concrete rule list and
packet. -/
theorem c7_acl_first_match_default_witness :
    (sortRules demoAclRules).Perm demoAclRules ∧
    (sortRules demoAclRules).Sorted (fun a b => a.order ≤ b.order) ∧
    (∀ r, (matchAclRules demoAclRules .allow demoIcmpPkt).2.2 = some r →
      matchesRule demoIcmpPkt r = true ∧
      (matchAclRules demoAclRules .allow demoIcmpPkt).1 = true ∧
      (matchAclRules demoAclRules .allow demoIcmpPkt).2.1 = r.action ∧
      ∃ pre post, sortRules demoAclRules = pre ++ r :: post ∧
        ∀ r' ∈ pre, matchesRule demoIcmpPkt r' = false) ∧
    ((∀ r ∈ demoAclRules, matchesRule demoIcmpPkt r = false) →
      matchAclRules demoAclRules .allow demoIcmpPkt = (false, .allow, none)) ∧
    (∀ r : AclRule, matchesRule demoIcmpPkt r =
      (!protoClauseFails r demoIcmpPkt && !ipClauseFails r.srcIp demoIcmpPkt.srcIp &&
       !ipClauseFails r.dstIp demoIcmpPkt.dstIp &&
       !portClauseFails r.srcPort demoIcmpPkt.srcPort &&
       !portClauseFails r.dstPort demoIcmpPkt.dstPort)) :=
  c7_acl_first_match_default demoAclRules .allow demoIcmpPkt

-- ======================================================================
-- C10 — configured IP clauses are skipped for packets without that IP
-- ======================================================================

/-- An IP clause can only fail against a packet that actually carries the
corresponding IP: the clause guard requires `packet.srcIp`/`dstIp` to be
truthy. -/
theorem ipClauseFails_none (ruleIp : Option String) :
    ipClauseFails ruleIp none = false := by
  simp [ipClauseFails, strTruthy]

/-- C10: a rule whose src-ip (respectively dst-ip) clause is configured and
not `"any"` still matches a packet with no source (respectively destination)
IP — the clause is skipped rather than failing — so when the rule's other
clauses match, the packet is matched and receives the rule's action instead of
falling through to the default policy. -/
theorem c10_missing_ip_matches (rule : AclRule) (pkt : Packet) :
    (pkt.srcIp = none → strTruthy rule.srcIp = true → rule.srcIp.getD "" ≠ "any" →
      protoClauseFails rule pkt = false →
      ipClauseFails rule.dstIp pkt.dstIp = false →
      portClauseFails rule.srcPort pkt.srcPort = false →
      portClauseFails rule.dstPort pkt.dstPort = false →
      matchesRule pkt rule = true ∧
      matchAclRules [rule] .deny pkt = (true, rule.action, some rule)) ∧
    (pkt.dstIp = none → strTruthy rule.dstIp = true → rule.dstIp.getD "" ≠ "any" →
      protoClauseFails rule pkt = false →
      ipClauseFails rule.srcIp pkt.srcIp = false →
      portClauseFails rule.srcPort pkt.srcPort = false →
      portClauseFails rule.dstPort pkt.dstPort = false →
      matchesRule pkt rule = true ∧
      matchAclRules [rule] .deny pkt = (true, rule.action, some rule)) := by
  constructor
  · intro hnone _ _ hp hd hsp hdp
    have hsrc : ipClauseFails rule.srcIp pkt.srcIp = false := by
      rw [hnone]; exact ipClauseFails_none _
    have hm : matchesRule pkt rule = true := by
      unfold matchesRule
      simp [hp, hsrc, hd, hsp, hdp]
    refine ⟨hm, ?_⟩
    unfold matchAclRules sortRules
    simp [List.insertionSort, List.find?, hm]
  · intro hnone _ _ hp hs hsp hdp
    have hdst : ipClauseFails rule.dstIp pkt.dstIp = false := by
      rw [hnone]; exact ipClauseFails_none _
    have hm : matchesRule pkt rule = true := by
      unfold matchesRule
      simp [hp, hs, hdst, hsp, hdp]
    refine ⟨hm, ?_⟩
    unfold matchAclRules sortRules
    simp [List.insertionSort, List.find?, hm]

/-- An ARP packet carrying no IP addresses. -/
def demoArpPkt : Packet :=
  { id := "pkt-1", srcMac := "02:AA:00:00:00:01", dstMac := "FF:FF:FF:FF:FF:FF",
    proto := "arp", ttl := 64 }

/-- A rule with a configured, non-`any` source-IP CIDR clause. -/
def demoSrcIpRule : AclRule :=
  { id := "r1", order := 1, action := .deny, srcIp := some "10.0.0.0/8",
    proto := some "any" }

/-- C10 witness: the ARP packet, which has no source IP, is matched by the
rule whose src-ip clause is the CIDR `10.0.0.0/8`, and receives the rule's
action. -/
theorem c10_missing_ip_matches_witness :
    matchesRule demoArpPkt demoSrcIpRule = true ∧
    matchAclRules [demoSrcIpRule] .deny demoArpPkt =
      (true, demoSrcIpRule.action, some demoSrcIpRule) :=
  (c10_missing_ip_matches demoSrcIpRule demoArpPkt).1 (by decide) (by decide)
    (by decide) (by decide) (by decide) (by decide) (by decide)

-- ======================================================================
-- C8 — MAC learning
-- ======================================================================

/-- Overwriting an existing key in place leaves its lookup at the new value. -/
theorem mapGet_overwrite (k : String) (v : MacTableEntry) :
    ∀ m : MacTable, m.any (fun p => p.1 = k) = true →
      mapGet (m.map (fun p => if p.1 = k then (k, v) else p)) k = some v := by
  intro m
  induction m with
  | nil => intro h; simp at h
  | cons p rest ih =>
    intro h
    by_cases hp : p.1 = k
    · simp [mapGet, List.find?_cons, hp]
    · have h' : rest.any (fun q => q.1 = k) = true := by
        simpa [List.any_cons, hp] using h
      have hrec := ih h'
      simp only [mapGet, List.map_cons, if_neg hp, List.find?_cons] at hrec ⊢
      simp only [hp, decide_False]
      exact hrec

/-- Appending a fresh key puts its lookup at the new value. -/
theorem mapGet_append_new (k : String) (v : MacTableEntry) :
    ∀ m : MacTable, m.any (fun p => p.1 = k) = false →
      mapGet (m ++ [(k, v)]) k = some v := by
  intro m
  induction m with
  | nil => intro _; simp [mapGet, List.find?]
  | cons p rest ih =>
    intro h
    have hp : (p.1 = k) = False := by
      by_contra hc
      simp only [eq_iff_iff, iff_false] at hc
      push_neg at hc
      simp [List.any_cons, hc] at h
    have h' : rest.any (fun q => q.1 = k) = false := by
      simp only [List.any_cons, Bool.or_eq_false_iff] at h
      exact h.2
    have hrec := ih h'
    simp only [mapGet, List.cons_append, List.find?_cons, hp, decide_False] at hrec ⊢
    exact hrec

/-- `Map.set` makes the key look up the stored value. -/
theorem mapGet_mapSet_self (m : MacTable) (k : String) (v : MacTableEntry) :
    mapGet (mapSet m k v) k = some v := by
  unfold mapSet
  by_cases hmem : m.any (fun p => p.1 = k) = true
  · simp only [hmem, if_true]
    exact mapGet_overwrite k v m hmem
  · have hmem' : m.any (fun p => p.1 = k) = false := by
      cases h : m.any (fun p => p.1 = k) with
      | false => rfl
      | true => exact absurd h hmem
    simp only [hmem', Bool.false_eq_true, if_false]
    exact mapGet_append_new k v m hmem'

/-- Behaviour of one `learnMacAddress` call: afterwards the `(mac, vlan)` key
maps to the ingress interface; the learn hop is emitted iff the key was absent
or recorded on a different interface; an already-correct entry leaves the
table untouched; and every emitted hop is a `learn` hop. -/
theorem learnMacAddress_spec (node : SimNode) (mac ifId : String) (vlan time : Nat)
    (table : MacTable) (pid : String) :
    (∃ e, mapGet (learnMacAddress node mac ifId vlan time table pid).1
        (macTableKey mac vlan) = some e ∧ e.interfaceId = ifId) ∧
    (((learnMacAddress node mac ifId vlan time table pid).2 = []) ↔
      ∃ e, mapGet table (macTableKey mac vlan) = some e ∧ e.interfaceId = ifId) ∧
    ((∃ e, mapGet table (macTableKey mac vlan) = some e ∧ e.interfaceId = ifId) →
      (learnMacAddress node mac ifId vlan time table pid).1 = table) ∧
    (∀ hop ∈ (learnMacAddress node mac ifId vlan time table pid).2,
      hop.action = .learn) := by
  cases hget : mapGet table (macTableKey mac vlan) with
  | none =>
    have h1 : (learnMacAddress node mac ifId vlan time table pid).1 =
        mapSet table (macTableKey mac vlan)
          { mac := mac, interfaceId := ifId, vlan := vlan, timestamp := time } := by
      unfold learnMacAddress
      simp [hget]
    have h2 : (learnMacAddress node mac ifId vlan time table pid).2 =
        [mkHop node time ifId .learn
          ("Learned " ++ mac ++ " on " ++ ifId ++ " (VLAN " ++ toString vlan ++ ")")
          { id := pid, srcMac := mac, dstMac := "", proto := "icmp", ttl := 64 }] := by
      unfold learnMacAddress
      simp [hget]
    refine ⟨⟨_, by rw [h1]; exact mapGet_mapSet_self _ _ _, rfl⟩, ?_, ?_, ?_⟩
    · rw [h2]
      constructor
      · intro h; cases h
      · rintro ⟨e, he, _⟩
        cases he
    · rintro ⟨e, he, _⟩
      cases he
    · intro h hh
      rw [h2] at hh
      rcases List.mem_singleton.mp hh with rfl
      rfl
  | some e =>
    by_cases hif : e.interfaceId = ifId
    · have h1 : learnMacAddress node mac ifId vlan time table pid = (table, []) := by
        unfold learnMacAddress
        simp [hget, hif]
      rw [h1]
      exact ⟨⟨e, hget, hif⟩, by simp [hget, hif], fun _ => rfl, by simp⟩
    · have h1 : (learnMacAddress node mac ifId vlan time table pid).1 =
          mapSet table (macTableKey mac vlan)
            { mac := mac, interfaceId := ifId, vlan := vlan, timestamp := time } := by
        unfold learnMacAddress
        simp [hget, hif]
      have h2 : (learnMacAddress node mac ifId vlan time table pid).2 =
          [mkHop node time ifId .learn
            ("Learned " ++ mac ++ " on " ++ ifId ++ " (VLAN " ++ toString vlan ++ ")")
            { id := pid, srcMac := mac, dstMac := "", proto := "icmp", ttl := 64 }] := by
        unfold learnMacAddress
        simp [hget, hif]
      refine ⟨⟨_, by rw [h1]; exact mapGet_mapSet_self _ _ _, rfl⟩, ?_, ?_, ?_⟩
      · rw [h2]
        constructor
        · intro h; cases h
        · rintro ⟨e2, he2, hif2⟩
          rcases (Option.some.injEq _ _).mp he2 with rfl
          exact absurd hif2 hif
      · rintro ⟨e2, he2, hif2⟩
        rcases (Option.some.injEq _ _).mp he2 with rfl
        exact absurd hif2 hif
      · intro h hh
        rw [h2] at hh
        rcases List.mem_singleton.mp hh with rfl
        rfl

/-- Unicast forwarding emits no `learn` hop. -/
theorem forwardToKnownPort_no_learn (node : SimNode) (egressId : String)
    (pkt : Packet) (ingressId : String) (vlan : Nat) (links : List SimLink)
    (time : Nat) :
    ∀ hop ∈ (forwardToKnownPort node egressId pkt ingressId vlan links time).2,
      hop.action ≠ .learn := by
  unfold forwardToKnownPort
  split
  · simp
  · split
    · simp
    · split
      · split
        · intro hop hh
          rcases List.mem_singleton.mp hh with rfl
          simp [mkHop]
        · simp
      · simp

/-- Flooding emits no `learn` hop. -/
theorem floodPacket_no_learn (node : SimNode) (pkt : Packet) (ingressId : String)
    (vlan : Nat) (links : List SimLink) (time : Nat) (isB : Bool) :
    ∀ hop ∈ (floodPacket node pkt ingressId vlan links time isB).2,
      hop.action ≠ .learn := by
  unfold floodPacket
  intro hop hh
  rcases List.mem_singleton.mp hh with rfl
  simp [mkHop]

/-- The forwarding stage emits no `learn` hop. -/
theorem switchForwardStage_no_learn (node : SimNode) (pp : Packet)
    (ingressId : String) (vlan : Nat) (links : List SimLink) (time : Nat)
    (isB : Bool) (dstEntry : Option MacTableEntry) :
    ∀ hop ∈ (switchForwardStage node pp ingressId vlan links time isB dstEntry).2,
      hop.action ≠ .learn := by
  unfold switchForwardStage
  split
  · exact forwardToKnownPort_no_learn _ _ _ _ _ _ _
  · exact floodPacket_no_learn _ _ _ _ _ _ _

/-- Reduction of `switchProcessPacket` when the ingress interface exists, the
VLAN resolves, learning is enabled, and a table is present. -/
theorem switchProcessPacket_eq (node : SimNode) (ifId : String) (pkt : Packet)
    (links : List SimLink) (time : Nat) (tbl : MacTable) (counter : Nat)
    (ingress : SimInterface) (V : Nat)
    (h1 : getInterfaceById node ifId = some ingress)
    (h2 : resolveVlan pkt ingress = some V)
    (hml : node.macLearning.getD true = true) :
    switchProcessPacket node ifId pkt links time (some tbl) counter =
      ({ events := (switchForwardStage node { pkt with vlan := some V } ifId V links time
           (isBroadcastMac pkt.dstMac || isMulticastMac pkt.dstMac)
           (mapGet (learnMacAddress node pkt.srcMac ifId V time tbl
             ("pkt-" ++ toString counter)).1 (macTableKey pkt.dstMac V))).1,
         trace := (learnMacAddress node pkt.srcMac ifId V time tbl
             ("pkt-" ++ toString counter)).2 ++
           [mkHop node time ifId .receive ("Packet received on " ++ ifId)
             { pkt with vlan := some V }] ++
           (switchForwardStage node { pkt with vlan := some V } ifId V links time
             (isBroadcastMac pkt.dstMac || isMulticastMac pkt.dstMac)
             (mapGet (learnMacAddress node pkt.srcMac ifId V time tbl
               ("pkt-" ++ toString counter)).1 (macTableKey pkt.dstMac V))).2,
         delivered := false },
       some (learnMacAddress node pkt.srcMac ifId V time tbl
         ("pkt-" ++ toString counter)).1,
       if (learnMacAddress node pkt.srcMac ifId V time tbl
           ("pkt-" ++ toString counter)).2.isEmpty then counter else counter + 1) := by
  unfold switchProcessPacket
  simp only [h1, h2, hml, if_true]

/-- C8: on a switch with MAC learning enabled (and a table provided),
processing a packet with source MAC `M` arriving on interface `I` with
effective VLAN `V` leaves the MAC table mapping `(M, V)` to `I`; a `learn`
trace is emitted iff the table had no `(M, V)` entry or its entry named a
different interface; and processing a second packet with the same `(M, V)` on
the same interface leaves the whole table unchanged and emits no `learn`
trace. -/
theorem c8_mac_learning (node : SimNode) (ifId : String) (pkt : Packet)
    (links : List SimLink) (tbl : MacTable) (time counter : Nat)
    (ingress : SimInterface) (V : Nat)
    (h1 : getInterfaceById node ifId = some ingress)
    (h2 : resolveVlan pkt ingress = some V)
    (hml : node.macLearning.getD true = true) :
    ∃ tbl', (switchProcessPacket node ifId pkt links time (some tbl) counter).2.1 =
        some tbl' ∧
      (∃ e, mapGet tbl' (macTableKey pkt.srcMac V) = some e ∧ e.interfaceId = ifId) ∧
      ((∃ hop ∈ (switchProcessPacket node ifId pkt links time (some tbl) counter).1.trace,
          hop.action = .learn) ↔
        ¬ ∃ e, mapGet tbl (macTableKey pkt.srcMac V) = some e ∧ e.interfaceId = ifId) ∧
      (∀ pkt2 time2 c2, macTableKey pkt2.srcMac V = macTableKey pkt.srcMac V →
        resolveVlan pkt2 ingress = some V →
        (switchProcessPacket node ifId pkt2 links time2 (some tbl') c2).2.1 = some tbl' ∧
        ∀ hop ∈ (switchProcessPacket node ifId pkt2 links time2 (some tbl') c2).1.trace,
          hop.action ≠ .learn) := by
  have heq := switchProcessPacket_eq node ifId pkt links time tbl counter ingress V h1 h2 hml
  obtain ⟨hA, hBiff, _hCun, hDact⟩ :=
    learnMacAddress_spec node pkt.srcMac ifId V time tbl ("pkt-" ++ toString counter)
  refine ⟨(learnMacAddress node pkt.srcMac ifId V time tbl
    ("pkt-" ++ toString counter)).1, by rw [heq], hA, ?_, ?_⟩
  · rw [heq]
    dsimp only
    constructor
    · rintro ⟨hop, hmem, hact⟩ hex
      have hnil := hBiff.mpr hex
      rw [hnil] at hmem
      simp only [List.nil_append, List.mem_append, List.mem_singleton] at hmem
      rcases hmem with hmem | hmem
      · subst hmem
        exact absurd hact (by simp [mkHop])
      · exact switchForwardStage_no_learn _ _ _ _ _ _ _ _ hop hmem hact
    · intro hex
      have hne : (learnMacAddress node pkt.srcMac ifId V time tbl
          ("pkt-" ++ toString counter)).2 ≠ [] := fun h0 => hex (hBiff.mp h0)
      obtain ⟨hop, hhop⟩ : ∃ hop, hop ∈ (learnMacAddress node pkt.srcMac ifId V time tbl
          ("pkt-" ++ toString counter)).2 := by
        cases hl : (learnMacAddress node pkt.srcMac ifId V time tbl
            ("pkt-" ++ toString counter)).2 with
        | nil => exact absurd hl hne
        | cons a t => exact ⟨a, by simp [hl]⟩
      exact ⟨hop, by simp [List.mem_append, hhop], hDact hop hhop⟩
  · intro pkt2 time2 c2 hkey hres2
    have heq2 := switchProcessPacket_eq node ifId pkt2 links time2
      (learnMacAddress node pkt.srcMac ifId V time tbl ("pkt-" ++ toString counter)).1
      c2 ingress V h1 hres2 hml
    obtain ⟨_hA2, hBiff2, hCun2, _hDact2⟩ :=
      learnMacAddress_spec node pkt2.srcMac ifId V time2
        (learnMacAddress node pkt.srcMac ifId V time tbl ("pkt-" ++ toString counter)).1
        ("pkt-" ++ toString c2)
    have hexists : ∃ e, mapGet (learnMacAddress node pkt.srcMac ifId V time tbl
        ("pkt-" ++ toString counter)).1 (macTableKey pkt2.srcMac V) = some e ∧
        e.interfaceId = ifId := by
      rw [hkey]
      exact hA
    have hunch := hCun2 hexists
    have hnil2 := hBiff2.mpr hexists
    constructor
    · rw [heq2]
      dsimp only
      rw [hunch]
    · rw [heq2]
      dsimp only
      intro hop hmem
      rw [hnil2] at hmem
      simp only [List.nil_append, List.mem_append, List.mem_singleton] at hmem
      rcases hmem with hmem | hmem
      · subst hmem
        simp [mkHop]
      · exact switchForwardStage_no_learn _ _ _ _ _ _ _ _ hop hmem


/-- A switch with two access ports on VLAN 1 and learning enabled. -/
def demoSwitch1 : SimNode :=
  { id := "sw1", type := .«switch», label := "Switch 1",
    interfaces :=
      [{ id := "gi0/1", mac := "02:AA:00:00:00:11", portMode := some .access, vlan := some 1 },
       { id := "gi0/2", mac := "02:AA:00:00:00:12", portMode := some .access, vlan := some 1 }],
    macLearning := some true, vlanDatabase := some [1] }

/-- The ingress port of `demoSwitch1`. -/
def demoSwitchIngress : SimInterface :=
  { id := "gi0/1", mac := "02:AA:00:00:00:11", portMode := some .access, vlan := some 1 }

/-- Links attaching both demo hosts to `demoSwitch1`. -/
def demoSwitchLinks : List SimLink :=
  [{ id := "l1", source := ⟨"hostA", "eth0"⟩, target := ⟨"sw1", "gi0/1"⟩ },
   { id := "l2", source := ⟨"sw1", "gi0/2"⟩, target := ⟨"hostB", "eth0"⟩ }]

/-- A broadcast from host A. -/
def demoBcastPkt : Packet :=
  { id := "pkt-0", srcMac := "02:AA:00:00:00:01", dstMac := "FF:FF:FF:FF:FF:FF",
    proto := "icmp", ttl := 64 }

/-- C8 witness: the learning theorem applied at the concrete switch, ingress
port, broadcast packet, and an initially empty MAC table. -/
theorem c8_mac_learning_witness :
    ∃ tbl', (switchProcessPacket demoSwitch1 "gi0/1" demoBcastPkt demoSwitchLinks 1
        (some []) 0).2.1 = some tbl' ∧
      (∃ e, mapGet tbl' (macTableKey demoBcastPkt.srcMac 1) = some e ∧
        e.interfaceId = "gi0/1") ∧
      ((∃ hop ∈ (switchProcessPacket demoSwitch1 "gi0/1" demoBcastPkt demoSwitchLinks 1
          (some []) 0).1.trace, hop.action = .learn) ↔
        ¬ ∃ e, mapGet [] (macTableKey demoBcastPkt.srcMac 1) = some e ∧
          e.interfaceId = "gi0/1") ∧
      (∀ pkt2 time2 c2, macTableKey pkt2.srcMac 1 = macTableKey demoBcastPkt.srcMac 1 →
        resolveVlan pkt2 demoSwitchIngress = some 1 →
        (switchProcessPacket demoSwitch1 "gi0/1" pkt2 demoSwitchLinks time2
          (some tbl') c2).2.1 = some tbl' ∧
        ∀ hop ∈ (switchProcessPacket demoSwitch1 "gi0/1" pkt2 demoSwitchLinks time2
            (some tbl') c2).1.trace, hop.action ≠ .learn) :=
  c8_mac_learning demoSwitch1 "gi0/1" demoBcastPkt demoSwitchLinks [] 1 0
    demoSwitchIngress 1 (by decide) (by decide) (by decide)

-- ======================================================================
-- C4 — switch egress admissibility and VLAN isolation
-- ======================================================================

/-- The code's egress test is the claim's admissibility predicate extended
with the default arm for interfaces without a configured port mode. -/
theorem canEgress_iff_amended (iface : SimInterface) (v : Nat) :
    canEgressOnInterface iface v = true ↔ amendedAdmissible iface v := by
  unfold canEgressOnInterface amendedAdmissible claimAdmissible
  rcases hm : iface.portMode with _ | pm
  · simp [hm]
  · cases pm
    · simp [hm]
    · cases ha : iface.allowedVlans <;> simp [hm, ha]

/-- Every flooded event leaves through a non-ingress interface passing the
egress VLAN test, towards that interface's link peer. -/
theorem floodPacket_events (node : SimNode) (pp : Packet) (ingressId : String)
    (vlan : Nat) (links : List SimLink) (time : Nat) (isB : Bool) :
    ∀ e ∈ (floodPacket node pp ingressId vlan links time isB).1,
      ∃ iface, iface ∈ node.interfaces ∧ iface.id ≠ ingressId ∧
        canEgressOnInterface iface vlan = true ∧
        getConnectedInterface links node.id iface.id = some ⟨e.nodeId, e.interfaceId⟩ := by
  unfold floodPacket
  intro e he
  dsimp only at he
  rcases List.mem_filterMap.mp he with ⟨iface, hm, hf⟩
  by_cases hid : iface.id = ingressId
  · rw [if_pos hid] at hf
    cases hf
  · rw [if_neg hid] at hf
    by_cases hce : canEgressOnInterface iface vlan = true
    · rw [if_pos hce] at hf
      cases hc : getConnectedInterface links node.id iface.id with
      | none => rw [hc] at hf; cases hf
      | some c =>
        rw [hc] at hf
        dsimp only at hf
        have he2 := (Option.some.injEq _ _).mp hf
        refine ⟨iface, hm, hid, hce, ?_⟩
        rw [hc, ← he2]
    · rw [if_neg hce] at hf
      cases hf

/-- A known-port unicast event leaves through a non-ingress interface passing
the egress VLAN test, towards that interface's link peer. -/
theorem forwardToKnownPort_events (node : SimNode) (egressId : String)
    (pp : Packet) (ingressId : String) (vlan : Nat) (links : List SimLink)
    (time : Nat) :
    ∀ e ∈ (forwardToKnownPort node egressId pp ingressId vlan links time).1,
      ∃ iface, iface ∈ node.interfaces ∧ iface.id ≠ ingressId ∧
        canEgressOnInterface iface vlan = true ∧
        getConnectedInterface links node.id iface.id = some ⟨e.nodeId, e.interfaceId⟩ := by
  intro e he
  unfold forwardToKnownPort at he
  cases hgi : getInterfaceById node egressId with
  | none => rw [hgi] at he; cases he
  | some egressIface =>
    rw [hgi] at he
    dsimp only at he
    have hmem : egressIface ∈ node.interfaces := by
      unfold getInterfaceById at hgi
      exact List.mem_of_find?_eq_some hgi
    by_cases hid : egressIface.id = ingressId
    · rw [if_pos hid] at he
      cases he
    · rw [if_neg hid] at he
      by_cases hce : canEgressOnInterface egressIface vlan = true
      · rw [if_pos hce] at he
        cases hc : getConnectedInterface links node.id egressIface.id with
        | none => rw [hc] at he; cases he
        | some c =>
          rw [hc] at he
          dsimp only at he
          rcases List.mem_singleton.mp he with rfl
          exact ⟨egressIface, hmem, hid, hce, by rw [hc]⟩
      · rw [if_neg hce] at he
        cases he

/-- Every event of the forwarding stage leaves through a non-ingress
interface passing the egress VLAN test, towards that interface's link peer. -/
theorem switchForwardStage_events (node : SimNode) (pp : Packet)
    (ingressId : String) (vlan : Nat) (links : List SimLink) (time : Nat)
    (isB : Bool) (dstEntry : Option MacTableEntry) :
    ∀ e ∈ (switchForwardStage node pp ingressId vlan links time isB dstEntry).1,
      ∃ iface, iface ∈ node.interfaces ∧ iface.id ≠ ingressId ∧
        canEgressOnInterface iface vlan = true ∧
        getConnectedInterface links node.id iface.id = some ⟨e.nodeId, e.interfaceId⟩ := by
  unfold switchForwardStage
  split
  · exact forwardToKnownPort_events _ _ _ _ _ _ _
  · exact floodPacket_events _ _ _ _ _ _ _

/-- The events of a switch call are the events of its forwarding stage at the
resolved VLAN, for some destination-table entry. -/
theorem switchProcessPacket_events_stage (node : SimNode) (ifId : String)
    (pkt : Packet) (links : List SimLink) (time : Nat) (tblOpt : Option MacTable)
    (counter : Nat) (ingress : SimInterface) (V : Nat)
    (h1 : getInterfaceById node ifId = some ingress)
    (h2 : resolveVlan pkt ingress = some V) :
    ∃ dstEntry : Option MacTableEntry,
      (switchProcessPacket node ifId pkt links time tblOpt counter).1.events =
        (switchForwardStage node { pkt with vlan := some V } ifId V links time
          (isBroadcastMac pkt.dstMac || isMulticastMac pkt.dstMac) dstEntry).1 := by
  unfold switchProcessPacket
  simp only [h1, h2]
  exact ⟨_, rfl⟩

/-- C4 (amended): every event emitted by a switch call — by unicast forward or
by flood — leaves through a non-ingress interface admissible for the resolved
effective VLAN `V`, where admissible means: an access port whose configured
VLAN equals `V`, a trunk port with no allowed-VLAN restriction or with `V`
listed, **or an interface with no configured port mode when `V = 1`** (the
code treats such ports as access VLAN 1). Consequently a destination attached
(only) to an access port configured with VLAN `B ≠ V` never receives an event
directly from that switch in the same call. -/
theorem c4_switch_egress_vlan_admissibility (node : SimNode) (ifId : String)
    (pkt : Packet) (links : List SimLink) (tblOpt : Option MacTable)
    (time counter : Nat) (ingress : SimInterface) (V : Nat)
    (h1 : getInterfaceById node ifId = some ingress)
    (h2 : resolveVlan pkt ingress = some V) :
    (∀ e ∈ (switchProcessPacket node ifId pkt links time tblOpt counter).1.events,
      ∃ iface, iface ∈ node.interfaces ∧ iface.id ≠ ifId ∧
        amendedAdmissible iface V ∧
        getConnectedInterface links node.id iface.id = some ⟨e.nodeId, e.interfaceId⟩) ∧
    (∀ ifB B peer, ifB ∈ node.interfaces → ifB.portMode = some .access →
      ifB.vlan = some B → B ≠ V →
      (∀ i ∈ node.interfaces,
        getConnectedInterface links node.id i.id = some peer → i = ifB) →
      ∀ e ∈ (switchProcessPacket node ifId pkt links time tblOpt counter).1.events,
        ¬ (e.nodeId = peer.nodeId ∧ e.interfaceId = peer.interfaceId)) := by
  obtain ⟨dstEntry, hd⟩ := switchProcessPacket_events_stage node ifId pkt links time
    tblOpt counter ingress V h1 h2
  have hmain : ∀ e ∈ (switchProcessPacket node ifId pkt links time tblOpt counter).1.events,
      ∃ iface, iface ∈ node.interfaces ∧ iface.id ≠ ifId ∧
        amendedAdmissible iface V ∧
        getConnectedInterface links node.id iface.id = some ⟨e.nodeId, e.interfaceId⟩ := by
    intro e he
    rw [hd] at he
    rcases switchForwardStage_events node { pkt with vlan := some V } ifId V links time
      (isBroadcastMac pkt.dstMac || isMulticastMac pkt.dstMac) dstEntry e he with
      ⟨iface, hm, hne, hce, hconn⟩
    exact ⟨iface, hm, hne, (canEgress_iff_amended iface V).mp hce, hconn⟩
  refine ⟨hmain, ?_⟩
  intro ifB B peer hmemB haccB hvlanB hBV huniq e he hpeer
  rcases hmain e he with ⟨iface, hm, _, hadm, hconn⟩
  have hpe : (⟨e.nodeId, e.interfaceId⟩ : Endpoint) = peer := by
    cases peer
    simp only [Endpoint.mk.injEq]
    exact ⟨hpeer.1, hpeer.2⟩
  rw [hpe] at hconn
  have hiface : iface = ifB := huniq iface hm hconn
  subst hiface
  rcases hadm with h | h
  · rcases h with ⟨_, hv⟩ | ⟨hmode, _⟩
    · rw [hvlanB] at hv
      exact hBV ((Option.some.injEq _ _).mp hv)
    · rw [haccB] at hmode
      cases hmode
  · rw [haccB] at h
    cases h.1

/-- The C4 demonstration switch: ingress access port on VLAN 1 and an egress
port with no configured port mode. -/
def demoSwitchC4 : SimNode :=
  { id := "sw1", type := .«switch», label := "Switch 1",
    interfaces :=
      [{ id := "gi0/1", mac := "02:AA:00:00:00:11", portMode := some .access, vlan := some 1 },
       { id := "gi0/2", mac := "02:AA:00:00:00:12" }],
    macLearning := some true, vlanDatabase := some [1] }

/-- The ingress interface of `demoSwitchC4`. -/
def demoC4Ingress : SimInterface :=
  { id := "gi0/1", mac := "02:AA:00:00:00:11", portMode := some .access, vlan := some 1 }

/-- The unconfigured egress interface of `demoSwitchC4`. -/
def demoC4Unconfigured : SimInterface :=
  { id := "gi0/2", mac := "02:AA:00:00:00:12" }

/-- Links attaching host A to the access port and host B to the unconfigured
port. -/
def demoLinksC4 : List SimLink :=
  [{ id := "l1", source := ⟨"hostA", "eth0"⟩, target := ⟨"sw1", "gi0/1"⟩ },
   { id := "l2", source := ⟨"sw1", "gi0/2"⟩, target := ⟨"hostB", "eth0"⟩ }]

/-- C4 — counterexample to the claim as stated: on a broadcast with effective
VLAN 1, the switch emits an event to host B through interface `gi0/2`, the
only interface linked to host B — yet `gi0/2` is neither an access port with
VLAN 1 nor a trunk port, so it is not admissible in the claim's sense (the
code's default arm lets a port with no configured mode transmit VLAN 1). -/
theorem c4_counterexample_unconfigured_port :
    (switchProcessPacket demoSwitchC4 "gi0/1" demoBcastPkt demoLinksC4 1
        (some []) 0).1.events =
      [⟨{ demoBcastPkt with vlan := some 1 }, "hostB", "eth0"⟩] ∧
    getInterfaceById demoSwitchC4 "gi0/1" = some demoC4Ingress ∧
    resolveVlan demoBcastPkt demoC4Ingress = some 1 ∧
    (∀ iface ∈ demoSwitchC4.interfaces,
      getConnectedInterface demoLinksC4 "sw1" iface.id = some ⟨"hostB", "eth0"⟩ →
        iface = demoC4Unconfigured) ∧
    ¬ claimAdmissible demoC4Unconfigured 1 := by
  decide

/-- C4 witness: the amended admissibility theorem applied at the concrete
demonstration switch (access VLAN 10 on the isolation side). -/
theorem c4_switch_egress_vlan_admissibility_witness :
    (∀ e ∈ (switchProcessPacket demoSwitchC4 "gi0/1" demoBcastPkt demoLinksC4 1
        (some []) 0).1.events,
      ∃ iface, iface ∈ demoSwitchC4.interfaces ∧ iface.id ≠ "gi0/1" ∧
        amendedAdmissible iface 1 ∧
        getConnectedInterface demoLinksC4 demoSwitchC4.id iface.id =
          some ⟨e.nodeId, e.interfaceId⟩) ∧
    (∀ ifB B peer, ifB ∈ demoSwitchC4.interfaces → ifB.portMode = some .access →
      ifB.vlan = some B → B ≠ 1 →
      (∀ i ∈ demoSwitchC4.interfaces,
        getConnectedInterface demoLinksC4 demoSwitchC4.id i.id = some peer → i = ifB) →
      ∀ e ∈ (switchProcessPacket demoSwitchC4 "gi0/1" demoBcastPkt demoLinksC4 1
          (some []) 0).1.events,
        ¬ (e.nodeId = peer.nodeId ∧ e.interfaceId = peer.interfaceId)) :=
  c4_switch_egress_vlan_admissibility demoSwitchC4 "gi0/1" demoBcastPkt demoLinksC4
    (some []) 1 0 demoC4Ingress 1 (by decide) (by decide)

-- ======================================================================
-- C6 — directly-connected route selection
-- ======================================================================

/-- An interface the directly-connected scan can actually select: non-ingress,
truthy IP, subnet containing the destination, **and** a connected link peer
(the code continues past a matching interface with no link). -/
def directEligible (ingressId dst : String) (links : List SimLink)
    (nodeId : String) (iface : SimInterface) : Prop :=
  iface.id ≠ ingressId ∧ strTruthy iface.ip = true ∧
    ipInSubnet dst (iface.ip.getD "") = true ∧
    (getConnectedInterface links nodeId iface.id).isSome = true

instance (ingressId dst : String) (links : List SimLink) (nodeId : String)
    (iface : SimInterface) :
    Decidable (directEligible ingressId dst links nodeId iface) := by
  unfold directEligible
  infer_instance

/-- The scan of `findDirectRouteAux` returns `none` iff no interface of the
list is eligible, and returns the event/hop built from the first eligible
interface otherwise. -/
theorem findDirectRouteAux_char (node : SimNode) (dst ingressId : String)
    (links : List SimLink) (rp : Packet) (time : Nat) (ifs : List SimInterface) :
    (findDirectRouteAux node dst ingressId links rp time ifs = none ↔
      ∀ i ∈ ifs, ¬ directEligible ingressId dst links node.id i) ∧
    (∀ r, findDirectRouteAux node dst ingressId links rp time ifs = some r →
      ∃ pre post i c, ifs = pre ++ i :: post ∧
        i.id ≠ ingressId ∧ strTruthy i.ip = true ∧
        ipInSubnet dst (i.ip.getD "") = true ∧
        getConnectedInterface links node.id i.id = some c ∧
        (∀ j ∈ pre, ¬ directEligible ingressId dst links node.id j) ∧
        r = (⟨{ rp with srcMac := i.mac }, c.nodeId, c.interfaceId⟩,
          mkHop node time i.id .route
            ("Routing to directly connected network via " ++ i.id)
            { rp with srcMac := i.mac })) := by
  induction ifs with
  | nil =>
    refine ⟨⟨fun _ i hi => absurd hi (List.not_mem_nil i), fun _ => rfl⟩, ?_⟩
    intro r hr
    cases hr
  | cons iface rest ih =>
    by_cases hskip : (iface.id = ingressId ∨ ¬ strTruthy iface.ip)
    · have hstep : findDirectRouteAux node dst ingressId links rp time (iface :: rest) =
          findDirectRouteAux node dst ingressId links rp time rest := by
        conv_lhs => unfold findDirectRouteAux
        rw [if_pos hskip]
      have hnel : ¬ directEligible ingressId dst links node.id iface := by
        intro he
        rcases hskip with h | h
        · exact he.1 h
        · exact h he.2.1
      refine ⟨?_, ?_⟩
      · rw [hstep]
        constructor
        · intro hnone i hi
          rcases List.mem_cons.mp hi with rfl | hi'
          · exact hnel
          · exact (ih.1.mp hnone) i hi'
        · intro hall
          exact ih.1.mpr (fun i hi => hall i (List.mem_cons_of_mem _ hi))
      · intro r hr
        rw [hstep] at hr
        rcases ih.2 r hr with ⟨pre, post, i, c, hsplit, hprops⟩
        refine ⟨iface :: pre, post, i, c, by simp [hsplit], hprops.1, hprops.2.1,
          hprops.2.2.1, hprops.2.2.2.1, ?_, hprops.2.2.2.2.2⟩
        intro j hj
        rcases List.mem_cons.mp hj with rfl | hj'
        · exact hnel
        · exact hprops.2.2.2.2.1 j hj'
    · have hne : iface.id ≠ ingressId := fun h => hskip (Or.inl h)
      have hip : strTruthy iface.ip = true := by
        by_contra h
        exact hskip (Or.inr h)
      by_cases hsub : ipInSubnet dst (iface.ip.getD "") = true
      · cases hc : getConnectedInterface links node.id iface.id with
        | some c =>
          have hstep : findDirectRouteAux node dst ingressId links rp time (iface :: rest) =
              some (⟨{ rp with srcMac := iface.mac }, c.nodeId, c.interfaceId⟩,
                mkHop node time iface.id .route
                  ("Routing to directly connected network via " ++ iface.id)
                  { rp with srcMac := iface.mac }) := by
            conv_lhs => unfold findDirectRouteAux
            rw [if_neg hskip, if_pos hsub]
            simp only [hc]
          refine ⟨?_, ?_⟩
          · rw [hstep]
            constructor
            · intro h
              cases h
            · intro hall
              exact absurd ⟨hne, hip, hsub, by rw [hc]; rfl⟩ (hall iface (by simp))
          · intro r hr
            rw [hstep] at hr
            have hr' := (Option.some.injEq _ _).mp hr
            exact ⟨[], rest, iface, c, rfl, hne, hip, hsub, hc,
              fun j hj => absurd hj (List.not_mem_nil j), hr'.symm⟩
        | none =>
          have hstep : findDirectRouteAux node dst ingressId links rp time (iface :: rest) =
              findDirectRouteAux node dst ingressId links rp time rest := by
            conv_lhs => unfold findDirectRouteAux
            rw [if_neg hskip, if_pos hsub]
            simp only [hc]
          have hnel : ¬ directEligible ingressId dst links node.id iface := by
            intro he
            have h4 := he.2.2.2
            rw [hc] at h4
            cases h4
          refine ⟨?_, ?_⟩
          · rw [hstep]
            constructor
            · intro hnone i hi
              rcases List.mem_cons.mp hi with rfl | hi'
              · exact hnel
              · exact (ih.1.mp hnone) i hi'
            · intro hall
              exact ih.1.mpr (fun i hi => hall i (List.mem_cons_of_mem _ hi))
          · intro r hr
            rw [hstep] at hr
            rcases ih.2 r hr with ⟨pre, post, i, c, hsplit, hprops⟩
            refine ⟨iface :: pre, post, i, c, by simp [hsplit], hprops.1, hprops.2.1,
              hprops.2.2.1, hprops.2.2.2.1, ?_, hprops.2.2.2.2.2⟩
            intro j hj
            rcases List.mem_cons.mp hj with rfl | hj'
            · exact hnel
            · exact hprops.2.2.2.2.1 j hj'
      · have hstep : findDirectRouteAux node dst ingressId links rp time (iface :: rest) =
            findDirectRouteAux node dst ingressId links rp time rest := by
          conv_lhs => unfold findDirectRouteAux
          rw [if_neg hskip, if_neg hsub]
        have hnel : ¬ directEligible ingressId dst links node.id iface := by
          intro he
          exact hsub he.2.2.1
        refine ⟨?_, ?_⟩
        · rw [hstep]
          constructor
          · intro hnone i hi
            rcases List.mem_cons.mp hi with rfl | hi'
            · exact hnel
            · exact (ih.1.mp hnone) i hi'
          · intro hall
            exact ih.1.mpr (fun i hi => hall i (List.mem_cons_of_mem _ hi))
        · intro r hr
          rw [hstep] at hr
          rcases ih.2 r hr with ⟨pre, post, i, c, hsplit, hprops⟩
          refine ⟨iface :: pre, post, i, c, by simp [hsplit], hprops.1, hprops.2.1,
            hprops.2.2.1, hprops.2.2.2.1, ?_, hprops.2.2.2.2.2⟩
          intro j hj
          rcases List.mem_cons.mp hj with rfl | hj'
          · exact hnel
          · exact hprops.2.2.2.2.1 j hj'

/-- C6 (amended): the directly-connected lookup selects the first non-ingress
interface, in configured order, that has a truthy IP, whose subnet contains
the destination IP, **and that has a connected link peer** — a matching but
unlinked interface is skipped and the scan continues. The selected event
carries the packet with its source MAC rewritten to the egress interface's
MAC; an interface whose subnet does not contain the destination is never
chosen; the lookup fails iff no interface is eligible; and the containment
test is standard CIDR containment (all prefix bits compared) whenever the
addresses and the prefix length parse with length in `1..32`. -/
theorem c6_direct_route_first_linked_match (node : SimNode) (dst ingressId : String)
    (links : List SimLink) (rp : Packet) (time : Nat) :
    (findDirectRoute node dst ingressId links rp time = none ↔
      ∀ i ∈ node.interfaces, ¬ directEligible ingressId dst links node.id i) ∧
    (∀ r, findDirectRoute node dst ingressId links rp time = some r →
      ∃ pre post i c, node.interfaces = pre ++ i :: post ∧
        i.id ≠ ingressId ∧ strTruthy i.ip = true ∧
        ipInSubnet dst (i.ip.getD "") = true ∧
        getConnectedInterface links node.id i.id = some c ∧
        (∀ j ∈ pre, ¬ directEligible ingressId dst links node.id j) ∧
        r = (⟨{ rp with srcMac := i.mac }, c.nodeId, c.interfaceId⟩,
          mkHop node time i.id .route
            ("Routing to directly connected network via " ++ i.id)
            { rp with srcMac := i.mac })) ∧
    (∀ i : SimInterface, ∀ d s : Nat, ∀ l : Int, ipToNumber dst = some d →
      ipToNumber (ipPart (i.ip.getD "")) = some s →
      (cidrLenPart (i.ip.getD "")).bind parseIntJs = some l →
      1 ≤ l → l ≤ 32 →
      ((ipInSubnet dst (i.ip.getD "") = true) ↔ cidrContains d s l.toNat)) :=
  ⟨(findDirectRouteAux_char node dst ingressId links rp time node.interfaces).1,
   (findDirectRouteAux_char node dst ingressId links rp time node.interfaces).2,
   fun i d s l hd hs hl h1 h32 =>
     ipInSubnet_standard dst (i.ip.getD "") d s l hd hs hl h1 h32⟩

/-- The C6 demonstration router: `eth1` is the first interface whose subnet
contains `10.0.1.10` but it has no link; `eth2` also contains it and is
linked. -/
def demoRouterC6 : SimNode :=
  { id := "r1", type := .router, label := "Router 1",
    interfaces :=
      [{ id := "eth0", mac := "02:BB:00:00:00:01", ip := some "10.0.0.1/24" },
       { id := "eth1", mac := "02:BB:00:00:00:02", ip := some "10.0.1.1/24" },
       { id := "eth2", mac := "02:BB:00:00:00:03", ip := some "10.0.1.254/24" }] }

/-- Links for the C6 demonstration: only `eth0` (ingress side) and `eth2` are
wired; `eth1` has no link. -/
def demoLinksC6 : List SimLink :=
  [{ id := "l1", source := ⟨"hostA", "eth0"⟩, target := ⟨"r1", "eth0"⟩ },
   { id := "l2", source := ⟨"r1", "eth2"⟩, target := ⟨"hostB", "eth0"⟩ }]

/-- The routed packet (TTL already decremented) of the C6 demonstration. -/
def demoRoutedPktC6 : Packet :=
  { id := "pkt-0", srcMac := "02:AA:00:00:00:01", dstMac := "02:BB:00:00:00:01",
    srcIp := some "10.0.0.2", dstIp := some "10.0.1.10", proto := "icmp", ttl := 63 }

/-- C6 — counterexample to the claim as stated: `eth1` is the first
non-ingress interface whose CIDR subnet contains `10.0.1.10`, yet the lookup
does not select it (it has no link); the emitted event leaves via `eth2` with
`eth2`'s MAC as the rewritten source MAC, not `eth1`'s. -/
theorem c6_counterexample_unlinked_interface_skipped :
    ipInSubnet "10.0.1.10" "10.0.1.1/24" = true ∧
    (∃ pre post i, demoRouterC6.interfaces = pre ++ i :: post ∧
      pre.length = 1 ∧
      i.id = "eth1" ∧ i.id ≠ "eth0" ∧ strTruthy i.ip = true ∧
      ipInSubnet "10.0.1.10" (i.ip.getD "") = true ∧
      getConnectedInterface demoLinksC6 "r1" i.id = none) ∧
    (∃ r, findDirectRoute demoRouterC6 "10.0.1.10" "eth0" demoLinksC6
        demoRoutedPktC6 1 = some r ∧
      r.1.nodeId = "hostB" ∧ r.1.packet.srcMac = "02:BB:00:00:00:03" ∧
      r.1.packet.srcMac ≠ "02:BB:00:00:00:02") := by
  refine ⟨by decide,
    ⟨[{ id := "eth0", mac := "02:BB:00:00:00:01", ip := some "10.0.0.1/24" }],
     [{ id := "eth2", mac := "02:BB:00:00:00:03", ip := some "10.0.1.254/24" }],
     { id := "eth1", mac := "02:BB:00:00:00:02", ip := some "10.0.1.1/24" },
     by decide, by decide, by decide, by decide, by decide, by decide, by decide⟩,
    ⟨(⟨{ demoRoutedPktC6 with srcMac := "02:BB:00:00:00:03" }, "hostB", "eth0"⟩,
      mkHop demoRouterC6 1 "eth2" .route
        "Routing to directly connected network via eth2"
        { demoRoutedPktC6 with srcMac := "02:BB:00:00:00:03" }), by decide,
      by decide, by decide, by decide⟩⟩

/-- C6 witness: the amended lookup characterization applied at the concrete
demonstration router. -/
theorem c6_direct_route_first_linked_match_witness :
    (findDirectRoute demoRouterC6 "10.0.1.10" "eth0" demoLinksC6
        demoRoutedPktC6 1 = none ↔
      ∀ i ∈ demoRouterC6.interfaces,
        ¬ directEligible "eth0" "10.0.1.10" demoLinksC6 demoRouterC6.id i) ∧
    (∀ r, findDirectRoute demoRouterC6 "10.0.1.10" "eth0" demoLinksC6
        demoRoutedPktC6 1 = some r →
      ∃ pre post i c, demoRouterC6.interfaces = pre ++ i :: post ∧
        i.id ≠ "eth0" ∧ strTruthy i.ip = true ∧
        ipInSubnet "10.0.1.10" (i.ip.getD "") = true ∧
        getConnectedInterface demoLinksC6 demoRouterC6.id i.id = some c ∧
        (∀ j ∈ pre, ¬ directEligible "eth0" "10.0.1.10" demoLinksC6 demoRouterC6.id j) ∧
        r = (⟨{ demoRoutedPktC6 with srcMac := i.mac }, c.nodeId, c.interfaceId⟩,
          mkHop demoRouterC6 1 i.id .route
            ("Routing to directly connected network via " ++ i.id)
            { demoRoutedPktC6 with srcMac := i.mac })) ∧
    (∀ i : SimInterface, ∀ d s : Nat, ∀ l : Int, ipToNumber "10.0.1.10" = some d →
      ipToNumber (ipPart (i.ip.getD "")) = some s →
      (cidrLenPart (i.ip.getD "")).bind parseIntJs = some l →
      1 ≤ l → l ≤ 32 →
      ((ipInSubnet "10.0.1.10" (i.ip.getD "") = true) ↔ cidrContains d s l.toNat)) :=
  c6_direct_route_first_linked_match demoRouterC6 "10.0.1.10" "eth0" demoLinksC6
    demoRoutedPktC6 1

-- ======================================================================
-- C9 — topology-conversion interface resolution
-- ======================================================================

/-- Endpoint-interface resolution as the conversion actually behaves (the
amended wording): the **raw** handle id — no `-source`/`-target` suffix is
stripped — when it is nonempty and names an interface of the node; otherwise
the node's first interface id; `eth0` when the node has no interfaces or does
not exist. -/
def amendedInterfaceForConnection (nodes : List SimNode) (nodeId : String)
    (handleId : Option String) : String :=
  match nodes.find? (fun n => n.id = nodeId) with
  | none => "eth0"
  | some node =>
    match handleId with
    | some h =>
      if h ≠ "" ∧ node.interfaces.any (fun i => i.id = h) then h
      else jsOrStr (node.interfaces.head?.map (·.id)) "eth0"
    | none => jsOrStr (node.interfaces.head?.map (·.id)) "eth0"

/-- C9 (amended): the conversion resolves each link endpoint's interface id
from the **raw** handle id — no trailing `-source`/`-target` suffix is
stripped — using the raw id when it names an interface on that node and
otherwise falling back to the node's first interface id (`eth0` when the node
has no interfaces or is unknown); every converted link is built per-edge from
this resolution. -/
theorem c9_conversion_uses_raw_handle :
    (∀ (nodes : List SimNode) (nodeId : String) (handleId : Option String),
      getInterfaceForConnection nodes nodeId handleId =
        amendedInterfaceForConnection nodes nodeId handleId) ∧
    (∀ (flowNodes : List FlowNode) (edges : List FlowEdge),
      (convertTopology flowNodes edges).links = edges.map (fun e =>
        { id := e.id,
          source := ⟨e.source, amendedInterfaceForConnection
            (flowNodes.map flowNodeToSimNode) e.source e.sourceHandle⟩,
          target := ⟨e.target, amendedInterfaceForConnection
            (flowNodes.map flowNodeToSimNode) e.target e.targetHandle⟩ })) := by
  have heq : ∀ (nodes : List SimNode) (nodeId : String) (handleId : Option String),
      getInterfaceForConnection nodes nodeId handleId =
        amendedInterfaceForConnection nodes nodeId handleId := by
    intro nodes nodeId handleId
    unfold getInterfaceForConnection amendedInterfaceForConnection
    cases hfind : nodes.find? (fun n => n.id = nodeId) with
    | none => rfl
    | some node =>
      cases handleId with
      | none => simp [strTruthy]
      | some h =>
        by_cases hh : h = ""
        · subst hh
          simp [strTruthy]
        · simp [strTruthy, hh]
  refine ⟨heq, ?_⟩
  intro flowNodes edges
  unfold convertTopology
  simp only [heq]

/-- A two-interface editor node configuration for the C9 demonstration. -/
def demoFlowConfigC9 : FlowConfig :=
  { interfaces := some
      [{ id := "gi0/1", mac := "02:CC:00:00:00:01" },
       { id := "gi0/2", mac := "02:CC:00:00:00:02" }] }

/-- The two-interface editor node of the C9 demonstration. -/
def demoFlowNodeC9 : FlowNode :=
  { id := "n1", type := .host, label := "Node 1", config := some demoFlowConfigC9 }

/-- The peer editor node configuration of the C9 demonstration. -/
def demoFlowPeerConfigC9 : FlowConfig :=
  { interfaces := some [{ id := "eth0", mac := "02:CC:00:00:00:03" }] }

/-- The peer editor node of the C9 demonstration. -/
def demoFlowPeerC9 : FlowNode :=
  { id := "n2", type := .host, label := "Node 2", config := some demoFlowPeerConfigC9 }

/-- The editor edge of the C9 demonstration: its source handle carries the
usual `-source` suffix over interface `gi0/2`. -/
def demoFlowEdgeC9 : FlowEdge :=
  { id := "e1", source := "n1", target := "n2",
    sourceHandle := some "gi0/2-source", targetHandle := some "eth0-target" }

/-- C9 — counterexample to the claim as stated: for handle `gi0/2-source` on a
node with interfaces `gi0/1, gi0/2`, stripping would select `gi0/2`, but the
conversion compares the raw handle (which names no interface) and falls back
to the first interface `gi0/1`; the converted link records `gi0/1`, diverging
from the claimed resolution. -/
theorem c9_counterexample_suffix_not_stripped :
    stripHandleSuffix "gi0/2-source" = "gi0/2" ∧
    specStrippedInterfaceForConnection
      ([demoFlowNodeC9, demoFlowPeerC9].map flowNodeToSimNode) "n1"
      (some "gi0/2-source") = "gi0/2" ∧
    getInterfaceForConnection
      ([demoFlowNodeC9, demoFlowPeerC9].map flowNodeToSimNode) "n1"
      (some "gi0/2-source") = "gi0/1" ∧
    (convertTopology [demoFlowNodeC9, demoFlowPeerC9] [demoFlowEdgeC9]).links =
      [{ id := "e1", source := ⟨"n1", "gi0/1"⟩, target := ⟨"n2", "eth0"⟩ }] ∧
    "gi0/1" ≠ "gi0/2" := by
  decide
